import Mathlib

/-!
# Verification of the pi-adapter protocol bridge

Shallow embedding of the `pi-adapter` Node script shipped in this repository
(the bridge between the Codex app-server JSON-RPC dialect spoken on
stdin/stdout and the pi-coding-agent RPC dialect spoken by a child process).

The embedding follows the source: module-level mutable state becomes the
`BridgeState` structure threaded explicitly; `uuidv4()` becomes an abstract
id supply `gen : Nat → String` driven by a counter; each `await` of an agent
command is resolved by an `Oracle` describing how the corresponding promise
settles (`okv`, `errv`, or `hang` — the last models a sink that never
settles, which is reachable because the child-exit handler does not reject
pending sinks).  JS string operations `split`, `join`, `includes`,
`startsWith` and truthiness (`x || y`) are modelled character-exactly.
-/

set_option linter.unusedVariables false
set_option linter.unusedTactic false
set_option linter.unnecessarySeqFocus false
set_option linter.unreachableTactic false

namespace PiAdapter

/-! ## JavaScript string primitives

`splitChar` models `s.split(sep)` for a one-character separator, and
`listJoin`/`jsJoin` model `Array.prototype.join`.  Both agree with the JS
semantics on every input (`"".split(c) = [""]`, trailing separators produce
a trailing empty piece, `[].join(s) = ""`). -/

def splitChar (sep : Char) : List Char → List (List Char)
  | [] => [[]]
  | c :: rest =>
    match splitChar sep rest with
    | [] => [[]]
    | h :: t => if c = sep then [] :: h :: t else (c :: h) :: t

def listJoin (sep : List Char) : List (List Char) → List Char
  | [] => []
  | [x] => x
  | x :: xs => x ++ sep ++ listJoin sep xs

/-- `s.split(sep)` at the `String` level (one-character separator). -/
def jsSplit (sep : Char) (s : String) : List String :=
  (splitChar sep s.data).map String.mk

/-- `arr.join(sep)` for an array of strings. -/
def jsJoin (sep : String) : List String → String
  | [] => ""
  | [x] => x
  | x :: xs => x ++ sep ++ jsJoin sep xs

/-- `s.includes(sub)` (substring containment). -/
def jsIncludes (s sub : String) : Bool := decide (sub.data <:+: s.data)

/-- `s.startsWith(pre)`. -/
def jsStartsWith (s pre : String) : Bool := pre.data.isPrefixOf s.data

/-- `s.toLowerCase()` (character-wise; tool names are ASCII). -/
def jsToLower (s : String) : String := String.mk (s.data.map Char.toLower)

/-- JS truthiness fallback `a || b` where an absent or empty string is falsy. -/
def truthyOr (a : Option String) (b : String) : String :=
  match a with
  | some s => if s = "" then b else s
  | none => b

/-- First truthy string of a chain `a1 || a2 || … || ''` (used for the
`args?.path || args?.file_path || …` lookups). -/
def jsOr : List (Option String) → String
  | [] => ""
  | a :: rest =>
    match a with
    | some s => if s = "" then jsOr rest else s
    | none => jsOr rest

/-- First truthy element of `a1 || a2 || …` kept as an option (used for
`threadId || currentThreadId || uuidv4()`-style chains). -/
def firstTruthy : List (Option String) → Option String
  | [] => none
  | a :: rest =>
    match a with
    | some s => if s = "" then firstTruthy rest else some s
    | none => firstTruthy rest

/-! ## Association-list model of JS `Map`

`Map.prototype.set` is modelled by prepending (observationally equal to
overwrite for `get`/`delete`/emptiness, the only operations the source
uses), `get` by first match, `delete` by removing every binding of the key. -/

def mapSet {β : Type} (m : List (String × β)) (k : String) (v : β) :
    List (String × β) := (k, v) :: m

def mapGet {β : Type} : List (String × β) → String → Option β
  | [], _ => none
  | (k', v) :: rest, k => if k' = k then some v else mapGet rest k

def mapDelete {β : Type} (m : List (String × β)) (k : String) :
    List (String × β) := m.filter (fun kv => kv.1 ≠ k)

/-! ## Outer (Codex) wire values -/

/-- A JSON-RPC id on the outer wire: `number | string`. -/
inductive RpcId
  | num (n : Int)
  | str (s : String)
deriving DecidableEq, Repr

structure RpcError where
  code : Int
  message : String
deriving DecidableEq, Repr

/-- One entry of a `thread/start` / `thread/list` response. -/
structure ThreadInfo where
  id : String
  name : String
  createdAt : String
deriving DecidableEq, Repr

/-- One entry of the `model/list` response payload (`data` array).  The
hardcoded fallback entries omit `provider` and `description`, hence the
options. -/
structure ModelEntry where
  id : String
  model : String
  provider : Option String
  displayName : String
  description : Option String
  supportedReasoningEfforts : List (String × String)
  defaultReasoningEffort : String
  isDefault : Bool
  backend : String
deriving DecidableEq, Repr

structure UsageBucket where
  usedPercent : Int
  resetsAt : Option String
  windowMinutes : Int
deriving DecidableEq, Repr

structure CreditInfo where
  hasCredits : Bool
  unlimited : Bool
  balance : Option String
deriving DecidableEq, Repr

/-- Successful result of `fetchClaudeRateLimits` (an HTTPS probe; its value
is produced outside the bridge state machine and enters through the
`Oracle`). -/
structure RatePayload where
  primary : Option UsageBucket
  secondary : Option UsageBucket
  credits : Option CreditInfo
deriving DecidableEq, Repr

/-- One provider entry of the `auth/status` response. -/
structure ProviderStatus where
  name : String
  ptype : String
  authenticated : Bool
  expired : Bool
  expiresAt : Option String
deriving DecidableEq, Repr

/-- The concrete `result` object shapes the router constructs, one
constructor per object literal in the source. -/
inductive RpcResult
  | initRes (protocolVersion : String) (threads turns models : Bool)
  | threadStartRes (thread : ThreadInfo)
  | threadResumeRes (id status : String)
  | threadListRes (threads : List ThreadInfo)
  | successRes (success : Bool)
  | turnStartRes (id status : String)
  | modelListRes (data : List ModelEntry)
  | skillsRes
  | rateLimitsRes (rateLimits : RatePayload)
  | rateNullRes
  | authStatusRes (providers : List ProviderStatus)
  | authLoginRes (success : Bool) (message : String) (instructions : List String)
deriving DecidableEq, Repr

/-- A raw-argument record of a tool call.  The source only ever reads the
fields below from the loosely-typed `args` object; an absent field is
`none`. -/
structure ToolArgs where
  command : Option String := none
  cmd : Option String := none
  path : Option String := none
  file_path : Option String := none
  file : Option String := none
  filename : Option String := none
  pattern : Option String := none
deriving DecidableEq, Repr

/-- One `changes` entry of a file-change item. -/
structure ChangeObj where
  path : String
  kind : String
  diff : Option String
deriving DecidableEq, Repr

/-- The `item` object of `item/started` / `item/completed` notifications;
fields the corresponding object literal omits (JS `undefined`) are `none`. -/
structure ItemObj where
  id : String
  itype : String
  status : String
  toolTypeF : Option String := none
  name : Option String := none
  arguments : Option ToolArgs := none
  command : Option String := none
  cwd : Option String := none
  aggregatedOutput : Option String := none
  exitCode : Option Int := none
  changes : Option (List ChangeObj) := none
  text : Option String := none
  content : Option String := none
  summary : Option String := none
deriving DecidableEq, Repr

/-- Notification parameter payloads, one constructor per `params` shape the
source passes to `sendCodexNotification`. -/
inductive NotifParams
  | turn (tid threadId status : String)
  | item (threadId : String) (item : ItemObj)
  | delta (threadId itemId deltaText : String)
  | tokenUsage (threadId : String) (input output cacheRead cacheWrite : Option Int)
  | diffUpd (threadId diff : String)
  | errorP (threadId turnId msg : String) (willRetry : Bool)
  | emptyP
deriving DecidableEq, Repr

/-- One line written to the outer stdout.  `sendCodexResponse` sets `id?`
and one of `result?`/`error?`; `sendCodexNotification` sets `method?` and
`params?` and never sets `id?`. -/
structure OutValue where
  id? : Option RpcId
  method? : Option String
  params? : Option NotifParams
  result? : Option RpcResult
  error? : Option RpcError
deriving DecidableEq, Repr

/-- `sendCodexResponse(id, result?, error?)`: attach the error when one is
given, otherwise the result. -/
def sendCodexResponse (idv : Option RpcId) (result : Option RpcResult)
    (err : Option RpcError) : OutValue :=
  match err with
  | some e => { id? := idv, method? := none, params? := none, result? := none, error? := some e }
  | none => { id? := idv, method? := none, params? := none, result? := result, error? := none }

/-- `sendCodexNotification(method, params)`: a notification never carries an
id. -/
def sendCodexNotification (method : String) (params : NotifParams) : OutValue :=
  { id? := none, method? := some method, params? := some params, result? := none, error? := none }

/-! ## Inner (pi) wire values -/

/-- Commands the bridge writes to the agent (`{id, type, …}` lines). -/
inductive PiCommandBody
  | setModel (provider modelId : String)
  | newSession
  | promptCmd (message : String)
  | abortCmd
  | getAvailableModels
deriving DecidableEq, Repr

structure PiCommand where
  cid : String
  body : PiCommandBody
deriving DecidableEq, Repr

/-- The `toolCall` object of a `toolcall_end` assistant event. -/
structure ToolCallInfo where
  tcid : String
  name : String
  arguments : Option ToolArgs
deriving DecidableEq, Repr

/-- Sub-kinds of `message_update` (`assistantMessageEvent.type`). -/
inductive AssistantEv
  | textDelta (delta : String)
  | thinkingStart
  | thinkingDelta (delta : String)
  | thinkingEnd (content : Option String)
  | toolcallEnd (toolCall : Option ToolCallInfo)
  | otherSub (t : String)
deriving DecidableEq, Repr

/-- A block of a message `content` array or tool-result `content` array. -/
structure ContentBlock where
  ctype : String
  text : String
deriving DecidableEq, Repr

structure UsageInfo where
  input : Option Int := none
  output : Option Int := none
  cacheRead : Option Int := none
  cacheWrite : Option Int := none
deriving DecidableEq, Repr

/-- A tool execution result: its `content` array and `details.diff`. -/
structure PiToolResult where
  content : List ContentBlock := []
  diff : Option String := none
deriving DecidableEq, Repr

/-- Typed events arriving from the agent, with exactly the fields the
translator reads; a field the wire object may omit is an `Option`. -/
inductive PiEvent
  | agentStart
  | agentEnd
  | messageStart (role : String)
  | messageUpdate (sub : Option AssistantEv)
  | messageEnd (role : String) (content : List ContentBlock) (usage : Option UsageInfo)
  | toolExecutionStart (toolCallId toolName : String) (args : Option ToolArgs)
  | toolExecutionUpdate (toolCallId : String) (partRes : Option PiToolResult)
  | toolExecutionEnd (toolCallId toolName : String) (args : Option ToolArgs)
      (result : Option PiToolResult) (isError : Bool)
  | autoRetryStart (errorMessage : Option String)
  | autoRetryEnd (success : Bool) (finalError : Option String)
  | hookError (hookPath : Option String) (errMsg : Option String)
  | otherEvent (etype : String)
deriving DecidableEq, Repr

/-! ## Bridge state

The module-level `let` bindings of the script, threaded explicitly.
`piAlive` stands for `piProcess && !piProcess.killed` (the child-exit
handler clears it); `pendingRequests` holds the ids of correlated commands
whose completion sink has not settled; `uuidCounter` drives the abstract
`uuidv4()` supply `gen`. -/

structure ToolCacheEntry where
  toolName : String
  args : Option ToolArgs
deriving DecidableEq, Repr

structure BridgeState where
  piAlive : Bool
  currentThreadId : Option String
  currentTurnId : Option String
  currentMessageId : Option String
  isProcessing : Bool
  pendingRequests : List String
  currentModel : String
  currentProvider : String
  cwd : String
  procCwd : String
  nowIso : String
  nowMs : Int
  modelProviderMap : List (String × String)
  toolArgsCache : List (String × ToolCacheEntry)
  accumulatedDiff : List String
  uuidCounter : Nat
deriving DecidableEq, Repr

/-- The `piProcess.on('exit')` handler: log, clear `piProcess` and
`piReader`.  Nothing else — in particular `pendingRequests` is untouched. -/
def onPiExit (s : BridgeState) : BridgeState := { s with piAlive := false }

/-! ## Event translator -/

/-- Tool classification and display synthesis shared by
`tool_execution_start` and `tool_execution_end`: returns
`(toolType, commandField)` where `commandField` is the value of the
item's `command` field (`undefined`, i.e. `none`, for file changes). -/
def classifyTool (toolName : String) (args : ToolArgs) : String × Option String :=
  let isCommand := toolName = "bash" || toolName = "Bash"
  let isFileChange := toolName ∈ ["edit", "Edit", "write", "Write"]
  let command := jsOr [args.command, args.cmd]
  let filePath := jsOr [args.path, args.file_path, args.file, args.filename]
  let pattern := jsOr [args.pattern]
  if isCommand then
    ("commandExecution", some command)
  else if isFileChange then
    ("fileChange", none)
  else
    let displayCmd :=
      if toolName = "read" || toolName = "Read" then "read " ++ filePath
      else if toolName = "ls" then "ls " ++ (if filePath = "" then "." else filePath)
      else if toolName = "find" then
        "find \"" ++ pattern ++ "\" in " ++ (if filePath = "" then "." else filePath)
      else if toolName = "grep" then
        "grep /" ++ pattern ++ "/ in " ++ (if filePath = "" then "." else filePath)
      else if filePath = "" then toolName else toolName ++ " " ++ filePath
    ("commandExecution", some displayCmd)

/-- `['edit','Edit','write','Write'].includes(toolName)`. -/
def isFileChangeTool (toolName : String) : Bool :=
  toolName ∈ ["edit", "Edit", "write", "Write"]

/-- The `kind` of a file change: `create` for `write` tools, `edit`
otherwise. -/
def changeKind (toolName : String) : String :=
  if jsToLower toolName = "write" then "create" else "edit"

/-- The translator prelude `const turnId = currentTurnId || uuidv4();`:
yields the turn id used in payloads and the state with the id supply
advanced when a fresh uuid was drawn. -/
def preTurnId (gen : Nat → String) (s : BridgeState) : String × BridgeState :=
  match s.currentTurnId with
  | some t =>
    if t = "" then (gen s.uuidCounter, { s with uuidCounter := s.uuidCounter + 1 })
    else (t, s)
  | none => (gen s.uuidCounter, { s with uuidCounter := s.uuidCounter + 1 })

/-- The `message_end` prelude `const messageId = currentMessageId || uuidv4();`. -/
def preMessageId (gen : Nat → String) (s : BridgeState) : String × BridgeState :=
  match s.currentMessageId with
  | some m =>
    if m = "" then (gen s.uuidCounter, { s with uuidCounter := s.uuidCounter + 1 })
    else (m, s)
  | none => (gen s.uuidCounter, { s with uuidCounter := s.uuidCounter + 1 })

/-- The diff-accumulation step of `tool_execution_end`:
`if (diff) { push('--- a/…' + diff) } else if (fileContent) { push(synthesized) }`
(an empty-string diff is falsy). -/
def toolEndPush (acc : List String) (filePath : String) (diff : Option String)
    (fileContent : String) : List String :=
  match diff with
  | some d =>
    if d = "" then
      if fileContent = "" then acc
      else acc ++
        ["--- /dev/null\n+++ b/" ++ filePath ++ "\n@@ -0,0 +1," ++
         toString (jsSplit '\n' fileContent).length ++ " @@\n" ++
         jsJoin "\n" ((jsSplit '\n' fileContent).map (fun l => "+" ++ l))]
    else acc ++ ["--- a/" ++ filePath ++ "\n+++ b/" ++ filePath ++ "\n" ++ d]
  | none =>
    if fileContent = "" then acc
    else acc ++
      ["--- /dev/null\n+++ b/" ++ filePath ++ "\n@@ -0,0 +1," ++
       toString (jsSplit '\n' fileContent).length ++ " @@\n" ++
       jsJoin "\n" ((jsSplit '\n' fileContent).map (fun l => "+" ++ l))]

/-- The emission tail of `tool_execution_end`: for file-change tools adopt
the pushed accumulator and, when it is non-empty, follow `item/completed`
with `turn/diff/updated` carrying the fragments joined by a blank line. -/
def emitToolEndOutputs (threadId : String) (s : BridgeState) (completed : OutValue)
    (isFC : Bool) (acc : List String) : BridgeState × List OutValue :=
  if isFC then
    let s := { s with accumulatedDiff := acc }
    if acc.length > 0 then
      (s, [completed,
           sendCodexNotification "turn/diff/updated"
             (.diffUpd threadId (jsJoin "\n\n" acc))])
    else (s, [completed])
  else (s, [completed])

/-- The `tool_execution_end` case of the translator: cached-args recovery,
`item/completed`, and — for file-change tools — diff accumulation plus
`turn/diff/updated`. -/
def translateToolEnd (threadId : String) (s : BridgeState)
    (toolCallId toolName : String) (argsE : Option ToolArgs)
    (result : Option PiToolResult) (isError : Bool) : BridgeState × List OutValue :=
  let cached := mapGet s.toolArgsCache toolCallId
  -- const args = cached?.args || event.args || {};
  let args := ((match cached with
                | some c => c.args
                | none => none) <|> argsE).getD {}
  let s := { s with toolArgsCache := mapDelete s.toolArgsCache toolCallId }
  let content := (result.getD {}).content
  let textBlk := content.find? (fun c => c.ctype = "text")
  let diff := (result.getD {}).diff
  let isFC := isFileChangeTool toolName
  let filePath := jsOr [args.path, args.file_path, args.file, args.filename]
  let (toolType, commandField) := classifyTool toolName args
  let completed :=
    sendCodexNotification "item/completed"
      (.item threadId { id := toolCallId, itype := toolType, toolTypeF := some toolType,
                        command := commandField, cwd := some s.cwd,
                        aggregatedOutput := some (truthyOr (textBlk.map (fun tb => tb.text)) ""),
                        exitCode := some (if isError then 1 else 0),
                        status := if isError then "error" else "completed",
                        changes := if isFC then
                          some [{ path := filePath, kind := changeKind toolName,
                                  diff := diff }]
                        else none })
  let fileContent := truthyOr (textBlk.map (fun tb => tb.text)) ""
  emitToolEndOutputs threadId s completed isFC
    (toolEndPush s.accumulatedDiff filePath diff fileContent)

/-- The per-event dispatch of `translatePiEventToCodex` (after the
`threadId`/`turnId` prelude). -/
def translateCore (gen : Nat → String) (threadId turnId : String) (s : BridgeState)
    (event : PiEvent) : BridgeState × List OutValue :=
  match event with
  | .agentStart =>
    ({ s with isProcessing := true, accumulatedDiff := [] },
     [sendCodexNotification "turn/started" (.turn turnId threadId "inProgress")])
  | .agentEnd =>
    ({ s with isProcessing := false, currentTurnId := none },
     [sendCodexNotification "turn/completed" (.turn turnId threadId "completed")])
  | .messageStart role =>
    if role = "assistant" then
      let mid := gen s.uuidCounter
      ({ s with uuidCounter := s.uuidCounter + 1, currentMessageId := some mid },
       [sendCodexNotification "item/started"
         (.item threadId { id := mid, itype := "agentMessage", status := "inProgress" })])
    else (s, [])
  | .messageUpdate sub =>
    match sub with
    | none => (s, [])
    | some (.textDelta delta) =>
      (s, [sendCodexNotification "item/agentMessage/delta"
        (.delta threadId (truthyOr s.currentMessageId "msg-0") delta)])
    | some .thinkingStart =>
      (s, [sendCodexNotification "item/started"
        (.item threadId { id := "thinking", itype := "reasoning", status := "inProgress" })])
    | some (.thinkingDelta delta) =>
      (s, [sendCodexNotification "item/reasoning/textDelta"
        (.delta threadId "thinking" delta)])
    | some (.thinkingEnd content) =>
      let c := truthyOr content ""
      (s, [sendCodexNotification "item/completed"
        (.item threadId { id := "thinking", itype := "reasoning", status := "completed",
                          content := some c, summary := some c })])
    | some (.toolcallEnd toolCall) =>
      match toolCall with
      | none => (s, [])
      | some tc =>
        (s, [sendCodexNotification "item/started"
          (.item threadId { id := tc.tcid, itype := "commandExecution",
                            name := some tc.name, arguments := tc.arguments,
                            status := "inProgress" })])
    | some (.otherSub _) => (s, [])
  | .messageEnd role content usage =>
    if role = "assistant" then
      let textBlocks := content.filter (fun b => b.ctype = "text")
      let text := jsJoin "\n" (textBlocks.map (fun b => b.text))
      let r := preMessageId gen s
      let messageId := r.1
      let s := { r.2 with currentMessageId := none }
      let completed :=
        sendCodexNotification "item/completed"
          (.item threadId { id := messageId, itype := "agentMessage",
                            status := "completed", text := some text })
      match usage with
      | some u =>
        (s, [completed,
             sendCodexNotification "thread/tokenUsage/updated"
               (.tokenUsage threadId u.input u.output u.cacheRead u.cacheWrite)])
      | none => (s, [completed])
    else (s, [])
  | .toolExecutionStart toolCallId toolName argsO =>
    let s := { s with toolArgsCache := mapSet s.toolArgsCache toolCallId ⟨toolName, argsO⟩ }
    let args := argsO.getD {}
    let isFC := isFileChangeTool toolName
    let filePath := jsOr [args.path, args.file_path, args.file, args.filename]
    let (toolType, commandField) := classifyTool toolName args
    (s, [sendCodexNotification "item/started"
      (.item threadId { id := toolCallId, itype := toolType, toolTypeF := some toolType,
                        command := commandField, cwd := some s.cwd,
                        status := "inProgress",
                        changes := if isFC then
                          some [{ path := filePath, kind := changeKind toolName, diff := none }]
                        else none })])
  | .toolExecutionUpdate toolCallId partRes =>
    let content := (partRes.getD {}).content
    match content.find? (fun c => c.ctype = "text") with
    | some tb =>
      (s, [sendCodexNotification "item/commandExecution/outputDelta"
        (.delta threadId toolCallId tb.text)])
    | none => (s, [])
  | .toolExecutionEnd toolCallId toolName argsE result isError =>
    translateToolEnd threadId s toolCallId toolName argsE result isError
  | .autoRetryStart errorMessage =>
    let m := truthyOr errorMessage "Transient error"
    (s, [sendCodexNotification "error"
      (.errorP threadId turnId ("Retrying: " ++ m) true)])
  | .autoRetryEnd success finalError =>
    match finalError with
    | some f =>
      if success = false && f ≠ "" then
        (s, [sendCodexNotification "error" (.errorP threadId turnId f false)])
      else (s, [])
    | none => (s, [])
  | .hookError hookPath errMsg =>
    let hp := truthyOr hookPath ""
    let em := truthyOr errMsg "Hook error"
    (s, [sendCodexNotification "error"
      (.errorP threadId turnId ("Hook error (" ++ hp ++ "): " ++ em) false)])
  | .otherEvent _ => (s, [])

/-- `translatePiEventToCodex(event)`: maps one inner event to the resulting
bridge state and the list of outer notifications emitted, in emission
order.  `gen` supplies `uuidv4()` values off the state's counter. -/
def translatePiEventToCodex (gen : Nat → String) (s : BridgeState) (event : PiEvent) :
    BridgeState × List OutValue :=
  let threadId := truthyOr s.currentThreadId "default"
  let r := preTurnId gen s
  translateCore gen threadId r.1 r.2 event

/-- Run the translator over a whole event stream, collecting notifications
in emission order. -/
def runTranslate (gen : Nat → String) (s : BridgeState) :
    List PiEvent → BridgeState × List OutValue
  | [] => (s, [])
  | ev :: rest =>
    let r1 := translatePiEventToCodex gen s ev
    let r2 := runTranslate gen r1.1 rest
    (r2.1, r1.2 ++ r2.2)

/-- The diff payload an outer line carries, when it is a
`turn/diff/updated` notification. -/
def diffPayloadOf (o : OutValue) : Option String :=
  match o.method?, o.params? with
  | some "turn/diff/updated", some (.diffUpd _ d) => some d
  | _, _ => none

/-- The payloads of the `turn/diff/updated` notifications of a stream, in
order. -/
def diffPayloads (outs : List OutValue) : List String :=
  outs.filterMap diffPayloadOf

/-! ## Model registry -/

/-- The composite identifier advertized for a model:
`` `${m.provider}/${m.id}` ``. -/
def mkCompositeId (provider mid : String) : String := provider ++ "/" ++ mid

/-- Parsing a composite identifier back (the `turn/start` branch for ids
containing `/`): `parts = model.split('/')`, provider is `parts[0]`,
modelId is `parts.slice(1).join('/')`. -/
def parseCompositeId (s : String) : String × String :=
  match splitChar '/' s.data with
  | [] => ("", "")
  | h :: t => (String.mk h, String.mk (listJoin ['/'] t))

/-- A model entry as the agent reports it from `get_available_models`. -/
structure PiModel where
  provider : String
  mid : String
  mname : Option String
  reasoning : Bool
deriving DecidableEq, Repr

/-- The `model/list` registry update: for each returned model, store
composite-id → provider. -/
def populateRegistry (m : List (String × String)) (models : List PiModel) :
    List (String × String) :=
  models.foldl (fun acc mo => mapSet acc (mkCompositeId mo.provider mo.mid) mo.provider) m

/-- The prefix-based provider guess of the `turn/start` legacy-model
fallback. -/
def guessProvider (model : String) : String :=
  if jsStartsWith model "claude" then "anthropic"
  else if jsStartsWith model "gpt" || jsStartsWith model "o1"
          || jsStartsWith model "o3" then "openai"
  else if jsStartsWith model "gemini" then "google"
  else if jsStartsWith model "mistral" || jsStartsWith model "codestral"
          || jsStartsWith model "devstral" then "mistral"
  else if jsStartsWith model "grok" || jsIncludes model "pickle"
          || jsIncludes model "glm" || jsIncludes model "minimax" then "opencode"
  else "anthropic"

/-- Resolution of a non-composite (legacy) model id:
`provider = modelProviderMap.get(model) || ''`, then the prefix guess when
that is falsy.  The registry itself is left untouched by the source. -/
def resolveLegacyProvider (m : List (String × String)) (model : String) : String :=
  let p := truthyOr (mapGet m model) ""
  if p = "" then guessProvider model else p

/-! ## Request router -/

/-- How an awaited promise settles: fulfilled, rejected, or never (a sink
that is never resolved nor rejected — reachable because `piProcess.on('exit')`
does not reject pending sinks). -/
inductive AwaitRes (α : Type)
  | okv (a : α)
  | errv (msg : String)
  | hang
deriving DecidableEq, Repr

def AwaitRes.isHang {α : Type} : AwaitRes α → Bool
  | .hang => true
  | _ => false

structure AuthCredInfo where
  ctype : Option String
  expires : Option Int
deriving DecidableEq, Repr

/-- Settlement of every promise a request handler may await: the `set_model`
sent while spawning (`ensurePiProcess`), the `set_model` of a model switch,
`abort`, `get_available_models`, the rate-limit probe, and the auth-file
read. -/
structure Oracle where
  ensureSetModel : AwaitRes Unit
  turnSetModel : AwaitRes Unit
  abortRes : AwaitRes Unit
  getModels : AwaitRes (List PiModel)
  rateRes : AwaitRes RatePayload
  authRes : AwaitRes (List (String × AuthCredInfo))
deriving DecidableEq, Repr

/-- Every await settles (no promise is left forever pending). -/
def Oracle.settles (o : Oracle) : Prop :=
  o.ensureSetModel.isHang = false ∧ o.turnSetModel.isHang = false
  ∧ o.abortRes.isHang = false ∧ o.getModels.isHang = false
  ∧ o.rateRes.isHang = false ∧ o.authRes.isHang = false

instance (o : Oracle) : Decidable o.settles := by
  unfold Oracle.settles; infer_instance

/-- A block of the `turn/start` input array. -/
structure InputBlock where
  btype : String
  text : String
deriving DecidableEq, Repr

structure ReqParams where
  threadId : Option String := none
  cwd : Option String := none
  input : Option (List InputBlock) := none
  model : Option String := none
  provider : Option String := none
deriving DecidableEq, Repr

structure CodexRequest where
  id : Option RpcId
  method : String
  params : Option ReqParams := none
deriving DecidableEq, Repr

/-- Result of handling one outer request: the new state, the outer lines
written, the commands written to the agent, and whether the handler is
suspended forever on a never-settling await (in which case it has produced
no response). -/
structure HandlerResult where
  state : BridgeState
  outs : List OutValue
  piCmds : List PiCommand
  halted : Bool
deriving DecidableEq, Repr

/-- `sendPiCommand` used fire-and-forget (`.catch(…)` swallows rejection):
registers a pending sink and writes the command line; an immediate
rejection when the process is absent produces nothing. -/
def sendPiCommandNoWait (gen : Nat → String) (s : BridgeState) (body : PiCommandBody) :
    BridgeState × List PiCommand :=
  if s.piAlive then
    let cid := gen s.uuidCounter
    ({ s with uuidCounter := s.uuidCounter + 1,
              pendingRequests := s.pendingRequests ++ [cid] }, [⟨cid, body⟩])
  else (s, [])

/-- An awaited `sendPiCommand`: a settled await removes its pending entry
(the response line resolved it); a hung await leaves the sink in
`pendingRequests` forever. -/
def sendPiCommandAwait {α : Type} (gen : Nat → String) (s : BridgeState)
    (body : PiCommandBody) (res : AwaitRes α) :
    BridgeState × List PiCommand × AwaitRes α :=
  if s.piAlive then
    let cid := gen s.uuidCounter
    let s1 := { s with uuidCounter := s.uuidCounter + 1 }
    match res with
    | .hang => ({ s1 with pendingRequests := s1.pendingRequests ++ [cid] }, [⟨cid, body⟩], .hang)
    | r => (s1, [⟨cid, body⟩], r)
  else (s, [], .errv "Pi process not running")

/-- `ensurePiProcess()`: return at once when the child is alive; otherwise
spawn it and await a `set_model` for the current model (provider
`'anthropic'`). -/
def ensurePiProcess (gen : Nat → String) (s : BridgeState) (orc : Oracle) :
    BridgeState × List PiCommand × AwaitRes Unit :=
  if s.piAlive then (s, [], .okv ())
  else
    let s1 := { s with piAlive := true }
    sendPiCommandAwait gen s1 (.setModel "anthropic" s1.currentModel) orc.ensureSetModel

/-- The hardcoded `model/list` fallback list. -/
def fallbackModels : List ModelEntry :=
  [{ id := "claude-opus-4-20250514", model := "claude-opus-4-20250514",
     provider := none, displayName := "Claude Opus 4", description := none,
     supportedReasoningEfforts := [("default", "Standard")],
     defaultReasoningEffort := "default", isDefault := false, backend := "claude" },
   { id := "claude-sonnet-4-20250514", model := "claude-sonnet-4-20250514",
     provider := none, displayName := "Claude Sonnet 4", description := none,
     supportedReasoningEfforts := [("default", "Standard")],
     defaultReasoningEffort := "default", isDefault := true, backend := "claude" },
   { id := "claude-3-5-sonnet-20241022", model := "claude-3-5-sonnet-20241022",
     provider := none, displayName := "Claude 3.5 Sonnet", description := none,
     supportedReasoningEfforts := [("default", "Standard")],
     defaultReasoningEffort := "default", isDefault := false, backend := "claude" }]

/-- The outward shape of one agent-reported model in the `model/list`
response. -/
def mkModelEntry (currentModel : String) (m : PiModel) : ModelEntry :=
  let compositeId := mkCompositeId m.provider m.mid
  { id := compositeId, model := m.mid, provider := some m.provider,
    displayName := truthyOr m.mname m.mid,
    description := some (m.provider ++ " model"),
    supportedReasoningEfforts :=
      if m.reasoning then
        [("low", "Light reasoning"), ("medium", "Balanced"), ("high", "Deep reasoning")]
      else [("default", "Standard")],
    defaultReasoningEffort := if m.reasoning then "medium" else "default",
    isDefault := compositeId = currentModel, backend := "pi" }

/-- A millisecond timestamp rendered for `expiresAt`
(`new Date(ms).toISOString()`, modelled as an opaque injective rendering —
no claim inspects its format). -/
def dateToIso (ms : Int) : String := "iso:" ++ toString ms

/-- The `auth/status` provider list built from the parsed auth file plus
the known-provider fill-ins. -/
def buildAuthProviders (nowMs : Int) (entries : List (String × AuthCredInfo)) :
    List ProviderStatus :=
  let providers := entries.map (fun e =>
    { name := e.1, ptype := truthyOr e.2.ctype "unknown",
      authenticated := true,
      expired := match e.2.expires with
        | some ex => if ex = 0 then false else decide (nowMs > ex)
        | none => false,
      expiresAt := match e.2.expires with
        | some ex => if ex = 0 then none else some (dateToIso ex)
        | none => none })
  let knownProviders := ["anthropic", "openai-codex", "github-copilot",
                         "google-gemini-cli", "google-antigravity"]
  knownProviders.foldl (fun acc pn =>
    if acc.any (fun pr => pr.name = pn) then acc
    else acc ++ [{ name := pn, ptype := "oauth", authenticated := false,
                   expired := false, expiresAt := none }]) providers

/-- The `turn/start` handler body (entered after `ensurePiProcess`
succeeded).  `cmds0` are the agent commands the preamble already wrote. -/
def handleTurnStart (gen : Nat → String) (idv : Option RpcId) (p : ReqParams)
    (s : BridgeState) (orc : Oracle) (cmds0 : List PiCommand) : HandlerResult :=
  -- currentThreadId = threadId || currentThreadId || uuidv4();
  let (ctid, s) :=
    match firstTruthy [p.threadId, s.currentThreadId] with
    | some t => (t, s)
    | none => (gen s.uuidCounter, { s with uuidCounter := s.uuidCounter + 1 })
  let s := { s with currentThreadId := some ctid }
  let turnId := gen s.uuidCounter
  let s := { s with uuidCounter := s.uuidCounter + 1, currentTurnId := some turnId }
  let textInputs := (p.input.getD []).filter (fun b => b.btype = "text")
  let message := jsJoin "\n" (textInputs.map (fun b => b.text))
  if message = "" then
    ⟨s, [sendCodexResponse idv none (some ⟨-32000, "No text input provided"⟩)], cmds0, false⟩
  else
    -- if (model && model !== currentModel) { … await set_model … }
    let needSet : Bool :=
      match p.model with
      | some m => m ≠ "" && m ≠ s.currentModel
      | none => false
    if needSet then
      let m := (p.model.getD "")
      let (provider, modelId) :=
        if jsIncludes m "/" then parseCompositeId m
        else (resolveLegacyProvider s.modelProviderMap m, m)
      let s := { s with currentModel := m, currentProvider := provider }
      match sendPiCommandAwait gen s (.setModel provider modelId) orc.turnSetModel with
      | (s, cmds1, .hang) => ⟨s, [], cmds0 ++ cmds1, true⟩
      | (s, cmds1, .errv em) =>
        ⟨s, [sendCodexResponse idv none (some ⟨-32000, em⟩)], cmds0 ++ cmds1, false⟩
      | (s, cmds1, .okv _) =>
        let r := sendPiCommandNoWait gen s (.promptCmd message)
        ⟨r.1, [sendCodexResponse idv (some (.turnStartRes turnId "inProgress")) none],
         cmds0 ++ cmds1 ++ r.2, false⟩
    else
      let r := sendPiCommandNoWait gen s (.promptCmd message)
      ⟨r.1, [sendCodexResponse idv (some (.turnStartRes turnId "inProgress")) none],
       cmds0 ++ r.2, false⟩

/-- `handleCodexRequest(request)`: the try/catch around `ensurePiProcess`
plus the method switch.  A thrown (rejected) await lands in the catch and
produces a single `-32000` error response; a hung await suspends the
handler forever (`halted`, no response). -/
def handleCodexRequest (gen : Nat → String) (req : CodexRequest) (s : BridgeState)
    (orc : Oracle) : HandlerResult :=
  let idv := req.id
  let p := req.params.getD {}
  match ensurePiProcess gen s orc with
  | (s, cmds0, .hang) => ⟨s, [], cmds0, true⟩
  | (s, cmds0, .errv m) =>
    ⟨s, [sendCodexResponse idv none (some ⟨-32000, m⟩)], cmds0, false⟩
  | (s, cmds0, .okv _) =>
    match req.method with
    | "initialize" =>
      ⟨s, [sendCodexResponse idv (some (.initRes "2.0" true true true)) none], cmds0, false⟩
    | "thread/start" =>
      let tid := gen s.uuidCounter
      let s := { s with uuidCounter := s.uuidCounter + 1,
                        currentThreadId := some tid,
                        cwd := truthyOr p.cwd s.procCwd }
      let r := sendPiCommandNoWait gen s .newSession
      ⟨r.1, [sendCodexResponse idv
              (some (.threadStartRes ⟨tid, "New Thread", s.nowIso⟩)) none],
       cmds0 ++ r.2, false⟩
    | "thread/resume" =>
      let (tid, s) :=
        match firstTruthy [p.threadId] with
        | some t => (t, s)
        | none => (gen s.uuidCounter, { s with uuidCounter := s.uuidCounter + 1 })
      let s := { s with currentThreadId := some tid }
      ⟨s, [sendCodexResponse idv (some (.threadResumeRes tid "ready")) none], cmds0, false⟩
    | "thread/list" =>
      let ths : List ThreadInfo :=
        match firstTruthy [s.currentThreadId] with
        | some t => [⟨t, "Current Session", s.nowIso⟩]
        | none => []
      ⟨s, [sendCodexResponse idv (some (.threadListRes ths)) none], cmds0, false⟩
    | "thread/archive" =>
      ⟨{ s with currentThreadId := none },
       [sendCodexResponse idv (some (.successRes true)) none], cmds0, false⟩
    | "turn/start" => handleTurnStart gen idv p s orc cmds0
    | "turn/interrupt" =>
      (match sendPiCommandAwait gen s .abortCmd orc.abortRes with
       | (s, cmds1, .hang) => ⟨s, [], cmds0 ++ cmds1, true⟩
       | (s, cmds1, .errv em) =>
         ⟨s, [sendCodexResponse idv none (some ⟨-32000, em⟩)], cmds0 ++ cmds1, false⟩
       | (s, cmds1, .okv _) =>
         ⟨{ s with isProcessing := false },
          [sendCodexResponse idv (some (.successRes true)) none], cmds0 ++ cmds1, false⟩)
    | "thread/interrupt" =>
      (match sendPiCommandAwait gen s .abortCmd orc.abortRes with
       | (s, cmds1, .hang) => ⟨s, [], cmds0 ++ cmds1, true⟩
       | (s, cmds1, .errv em) =>
         ⟨s, [sendCodexResponse idv none (some ⟨-32000, em⟩)], cmds0 ++ cmds1, false⟩
       | (s, cmds1, .okv _) =>
         ⟨{ s with isProcessing := false },
          [sendCodexResponse idv (some (.successRes true)) none], cmds0 ++ cmds1, false⟩)
    | "model/list" =>
      (match sendPiCommandAwait gen s .getAvailableModels orc.getModels with
       | (s, cmds1, .hang) => ⟨s, [], cmds0 ++ cmds1, true⟩
       | (s, cmds1, .errv _) =>
         ⟨s, [sendCodexResponse idv (some (.modelListRes fallbackModels)) none],
          cmds0 ++ cmds1, false⟩
       | (s, cmds1, .okv models) =>
         let s := { s with modelProviderMap := populateRegistry s.modelProviderMap models }
         ⟨s, [sendCodexResponse idv
               (some (.modelListRes (models.map (mkModelEntry s.currentModel)))) none],
          cmds0 ++ cmds1, false⟩)
    | "skills/list" =>
      ⟨s, [sendCodexResponse idv (some .skillsRes) none], cmds0, false⟩
    | "account/rateLimits" =>
      (match orc.rateRes with
       | .hang => ⟨s, [], cmds0, true⟩
       | .errv _ => ⟨s, [sendCodexResponse idv (some .rateNullRes) none], cmds0, false⟩
       | .okv payload =>
         ⟨s, [sendCodexResponse idv (some (.rateLimitsRes payload)) none], cmds0, false⟩)
    | "account/rateLimits/read" =>
      (match orc.rateRes with
       | .hang => ⟨s, [], cmds0, true⟩
       | .errv _ => ⟨s, [sendCodexResponse idv (some .rateNullRes) none], cmds0, false⟩
       | .okv payload =>
         ⟨s, [sendCodexResponse idv (some (.rateLimitsRes payload)) none], cmds0, false⟩)
    | "codex/respondToRequest" =>
      ⟨s, [sendCodexResponse idv (some (.successRes true)) none], cmds0, false⟩
    | "auth/status" =>
      (match orc.authRes with
       | .hang => ⟨s, [], cmds0, true⟩
       | .errv _ =>
         ⟨s, [sendCodexResponse idv (some (.authStatusRes [])) none], cmds0, false⟩
       | .okv entries =>
         ⟨s, [sendCodexResponse idv
               (some (.authStatusRes (buildAuthProviders s.nowMs entries))) none],
          cmds0, false⟩)
    | "auth/login" =>
      (match firstTruthy [p.provider] with
       | none =>
         ⟨s, [sendCodexResponse idv none (some ⟨-32602, "provider parameter required"⟩)],
          cmds0, false⟩
       | some pv =>
         ⟨s, [sendCodexResponse idv
               (some (.authLoginRes false
                 ("To authenticate with " ++ pv ++ ", run: pi --provider " ++ pv)
                 ["1. Open Terminal",
                  "2. Run: pi --provider " ++ pv,
                  "3. Follow the OAuth flow in your browser",
                  "4. Return to CodexMonitor and reconnect the workspace"])) none],
          cmds0, false⟩)
    | other =>
      ⟨s, [sendCodexResponse idv none
            (some ⟨-32601, "Method not found: " ++ other⟩)], cmds0, false⟩

/-! ## Spec-side formulations (used for refinement claims only) -/

/-- Modelled from the spec wording of the synthesized full-addition diff:
`--- /dev/null\n+++ b/<path>\n@@ -0,0 +1,<N> @@\n` followed by each line of
the output text prefixed with `+`, `N` being the number of lines of the
output text. -/
def claimedCreateFragment (filePath fileContent : String) : String :=
  "--- /dev/null\n+++ b/" ++ filePath ++ "\n@@ -0,0 +1," ++
    toString (jsSplit '\n' fileContent).length ++ " @@\n" ++
    jsJoin "\n" ((jsSplit '\n' fileContent).map (fun l => "+" ++ l))

/-- Modelled from the spec wording of the agent-supplied-diff fragment:
`--- a/<path>\n+++ b/<path>\n` followed by the body. -/
def claimedEditFragment (filePath diffBody : String) : String :=
  "--- a/" ++ filePath ++ "\n+++ b/" ++ filePath ++ "\n" ++ diffBody

/-! ## Tool-args cache trace predicates -/

/-- The effect of one event on `toolArgsCache` (projection of the
translator). -/
def cacheStep (c : List (String × ToolCacheEntry)) : PiEvent →
    List (String × ToolCacheEntry)
  | .toolExecutionStart tid tname args => mapSet c tid ⟨tname, args⟩
  | .toolExecutionEnd tid _ _ _ _ => mapDelete c tid
  | _ => c

/-- Some later `tool_execution_end` in the trace carries this tool-call
id. -/
def hasEndFor (tid : String) : List PiEvent → Bool
  | [] => false
  | .toolExecutionEnd tid' _ _ _ _ :: rest => tid' = tid || hasEndFor tid rest
  | _ :: rest => hasEndFor tid rest

/-- Every `tool_execution_start` of the trace is followed (strictly later)
by a `tool_execution_end` with the same tool-call id. -/
def matchedB : List PiEvent → Bool
  | [] => true
  | .toolExecutionStart tid _ _ :: rest => hasEndFor tid rest && matchedB rest
  | _ :: rest => matchedB rest

/-! ## Item-id helpers -/

/-- The item id carried by an `item/started`/`item/completed`
notification's payload, if any. -/
def itemIdOf (o : OutValue) : Option String :=
  match o.params? with
  | some (.item _ it) => some it.id
  | _ => none

/-- The agent-supplied identifiers an event can stamp onto an
`item/started`/`item/completed` notification (tool-call ids are echoed
verbatim by the translator). -/
def agentItemIds : PiEvent → List String
  | .messageUpdate (some (.toolcallEnd (some tc))) => [tc.tcid]
  | .toolExecutionStart tid _ _ => [tid]
  | .toolExecutionEnd tid _ _ _ _ => [tid]
  | _ => []

/-! ## Concrete sample data for witnesses and counterexamples -/

/-- A concrete id supply standing in for `uuidv4()`. -/
def genSample : Nat → String := fun n => "uuid-" ++ toString n

/-- The module-level initial state of the script (fresh process, nothing
pending), with concrete stand-ins for the ambient cwd and clock. -/
def sampleState : BridgeState :=
  { piAlive := false, currentThreadId := none, currentTurnId := none,
    currentMessageId := none, isProcessing := false, pendingRequests := [],
    currentModel := "claude-sonnet-4-20250514", currentProvider := "anthropic",
    cwd := "/w", procCwd := "/w", nowIso := "2026-01-01T00:00:00.000Z", nowMs := 0,
    modelProviderMap := [], toolArgsCache := [], accumulatedDiff := [],
    uuidCounter := 0 }

/-- `sampleState` with the child already running. -/
def aliveState : BridgeState := { sampleState with piAlive := true }

/-- An oracle where every await settles successfully. -/
def orcOk : Oracle :=
  { ensureSetModel := .okv (), turnSetModel := .okv (), abortRes := .okv (),
    getModels := .okv [], rateRes := .errv "No Claude OAuth credentials found",
    authRes := .errv "ENOENT" }

/-- An oracle whose spawn-time `set_model` sink never settles (the child
died before responding and `piProcess.on('exit')` rejects nothing). -/
def orcHang : Oracle := { orcOk with ensureSetModel := .hang }

/-- An oracle whose `get_available_models` reply carries a concrete model
list (one inner id containing the separator). -/
def orcModels : Oracle :=
  { orcOk with getModels :=
      AwaitRes.okv [⟨"anthropic", "claude-sonnet-4-20250514", some "Claude Sonnet 4", false⟩,
                    ⟨"opencode", "x/y", none, true⟩] }

/-! # Lemmas -/

/-! ## String-primitive lemmas -/

theorem splitChar_ne_nil (sep : Char) (l : List Char) : splitChar sep l ≠ [] := by
  cases l with
  | nil => simp [splitChar]
  | cons c rest =>
    simp only [splitChar]
    rcases h : splitChar sep rest with _ | ⟨h', t⟩
    · simp
    · split <;> simp_all <;> split <;> simp

theorem splitChar_append_sep (sep : Char) (p m : List Char) (hp : sep ∉ p) :
    splitChar sep (p ++ sep :: m) = p :: splitChar sep m := by
  induction p with
  | nil =>
    simp only [List.nil_append, splitChar]
    rcases h : splitChar sep m with _ | ⟨h', t⟩
    · exact absurd h (splitChar_ne_nil sep m)
    · simp
  | cons a p ih =>
    have ha : a ≠ sep := fun hh => hp (hh ▸ List.mem_cons_self a p)
    have hp' : sep ∉ p := fun hh => hp (List.mem_cons_of_mem a hh)
    simp only [List.cons_append, splitChar, List.append_eq]
    rw [ih hp']
    simp [ha]

theorem listJoin_splitChar (sep : Char) (l : List Char) :
    listJoin [sep] (splitChar sep l) = l := by
  induction l with
  | nil => simp [splitChar, listJoin]
  | cons a l ih =>
    simp only [splitChar]
    rcases h : splitChar sep l with _ | ⟨h', t⟩
    · exact absurd h (splitChar_ne_nil sep l)
    · rw [h] at ih
      by_cases ha : a = sep
      · subst ha
        cases t with
        | nil => simp_all [listJoin]
        | cons t0 ts => simp_all [listJoin]
      · simp only [if_neg ha]
        cases t with
        | nil => simp_all [listJoin]
        | cons t0 ts => simp_all [listJoin]

theorem string_mk_data (s : String) : String.mk s.data = s := rfl

theorem jsJoin_data_mono (sep : String) :
    ∀ (l t : List String), l ≠ [] →
      (jsJoin sep l).data <+: (jsJoin sep (l ++ t)).data := by
  intro l
  induction l with
  | nil => intro t h; exact absurd rfl h
  | cons x l ih =>
    intro t _
    cases l with
    | nil =>
      cases t with
      | nil => simp
      | cons y t' =>
        refine ⟨(sep ++ jsJoin sep (y :: t')).data, ?_⟩
        simp [jsJoin, String.data_append]
    | cons x' l' =>
      obtain ⟨u, hu⟩ := ih t (by simp)
      refine ⟨u, ?_⟩
      simp only [List.cons_append, List.append_eq, jsJoin, String.data_append,
        List.append_assoc] at hu ⊢
      rw [hu]

/-! ## Model-registry lemmas -/

theorem parse_mk_composite (p m : String) (hp : ('/' : Char) ∉ p.data) :
    parseCompositeId (mkCompositeId p m) = (p, m) := by
  have hdata : (mkCompositeId p m).data = p.data ++ '/' :: m.data := by
    simp [mkCompositeId, String.data_append]
  rw [parseCompositeId, hdata, splitChar_append_sep _ _ _ hp]
  simp [listJoin_splitChar, string_mk_data]

theorem mk_composite_inj (p m p' m' : String) (hp : ('/' : Char) ∉ p.data)
    (hp' : ('/' : Char) ∉ p'.data) (h : mkCompositeId p m = mkCompositeId p' m') :
    p = p' ∧ m = m' := by
  have h1 := parse_mk_composite p m hp
  have h2 := parse_mk_composite p' m' hp'
  rw [h, h2] at h1
  exact ⟨(Prod.mk.injEq _ _ _ _ ▸ h1).1.symm, (Prod.mk.injEq _ _ _ _ ▸ h1).2.symm⟩

theorem mapGet_populate_preserve (models : List PiModel) (base : List (String × String))
    (p m : String) (hp : ('/' : Char) ∉ p.data)
    (hall : ∀ mo ∈ models, ('/' : Char) ∉ mo.provider.data)
    (hbase : mapGet base (mkCompositeId p m) = some p) :
    mapGet (populateRegistry base models) (mkCompositeId p m) = some p := by
  induction models generalizing base with
  | nil => simpa [populateRegistry] using hbase
  | cons mo rest ih =>
    have hstep : populateRegistry base (mo :: rest)
        = populateRegistry (mapSet base (mkCompositeId mo.provider mo.mid) mo.provider) rest :=
      rfl
    rw [hstep]
    refine ih _ (fun x hx => hall x (List.mem_cons_of_mem mo hx)) ?_
    by_cases hk : mkCompositeId mo.provider mo.mid = mkCompositeId p m
    · have hinj := mk_composite_inj _ _ _ _ (hall mo (List.mem_cons_self mo rest)) hp hk
      simp [mapSet, mapGet, hk, hinj.1, hinj.2, hbase]
    · simp [mapSet, mapGet, hk, hbase]

theorem mapGet_populate (models : List PiModel) (base : List (String × String))
    (hall : ∀ mo ∈ models, ('/' : Char) ∉ mo.provider.data)
    (mo : PiModel) (hmo : mo ∈ models) :
    mapGet (populateRegistry base models) (mkCompositeId mo.provider mo.mid)
      = some mo.provider := by
  induction models generalizing base with
  | nil => cases hmo
  | cons m0 rest ih =>
    have hstep : populateRegistry base (m0 :: rest)
        = populateRegistry (mapSet base (mkCompositeId m0.provider m0.mid) m0.provider) rest :=
      rfl
    rw [hstep]
    rcases List.mem_cons.mp hmo with rfl | hmo'
    · refine mapGet_populate_preserve rest _ _ _ (hall mo (List.mem_cons_self mo rest))
        (fun x hx => hall x (List.mem_cons_of_mem mo hx)) ?_
      simp [mapSet, mapGet]
    · exact ih _ (fun x hx => hall x (List.mem_cons_of_mem m0 hx)) hmo'

/-! ## Translator lemmas -/

theorem preTurnId_state (gen : Nat → String) (s : BridgeState) :
    (preTurnId gen s).2 = s
    ∨ (preTurnId gen s).2 = { s with uuidCounter := s.uuidCounter + 1 } := by
  unfold preTurnId
  (repeat' split) <;> simp

theorem preTurnId_cmid (gen : Nat → String) (s : BridgeState) :
    (preTurnId gen s).2.currentMessageId = s.currentMessageId := by
  rcases preTurnId_state gen s with h | h <;> rw [h]

theorem preTurnId_acc (gen : Nat → String) (s : BridgeState) :
    (preTurnId gen s).2.accumulatedDiff = s.accumulatedDiff := by
  rcases preTurnId_state gen s with h | h <;> rw [h]

theorem preTurnId_cache (gen : Nat → String) (s : BridgeState) :
    (preTurnId gen s).2.toolArgsCache = s.toolArgsCache := by
  rcases preTurnId_state gen s with h | h <;> rw [h]

theorem preMessageId_state (gen : Nat → String) (s : BridgeState) :
    (preMessageId gen s).2 = s
    ∨ (preMessageId gen s).2 = { s with uuidCounter := s.uuidCounter + 1 } := by
  unfold preMessageId
  (repeat' split) <;> simp

theorem preMessageId_cache (gen : Nat → String) (s : BridgeState) :
    (preMessageId gen s).2.toolArgsCache = s.toolArgsCache := by
  rcases preMessageId_state gen s with h | h <;> rw [h]

theorem preMessageId_acc (gen : Nat → String) (s : BridgeState) :
    (preMessageId gen s).2.accumulatedDiff = s.accumulatedDiff := by
  rcases preMessageId_state gen s with h | h <;> rw [h]

theorem preMessageId_fresh (gen : Nat → String) (s : BridgeState)
    (hgen : ∀ n, gen n ≠ "msg-0") (hmid : s.currentMessageId ≠ some "msg-0") :
    (preMessageId gen s).1 ≠ "msg-0" := by
  unfold preMessageId
  (repeat' split) <;> first
  | exact hgen _
  | (rename_i m hm _; intro hc; exact hmid (by rw [← hc]; assumption))

theorem core_cache_proj (gen : Nat → String) (threadId turnId : String)
    (s : BridgeState) (ev : PiEvent) :
    (translateCore gen threadId turnId s ev).1.toolArgsCache
      = cacheStep s.toolArgsCache ev := by
  unfold translateCore translateToolEnd emitToolEndOutputs
  cases ev <;>
    simp [cacheStep] <;>
    (repeat' split) <;>
    simp_all [preMessageId_cache]

theorem translate_cache_proj (gen : Nat → String) (s : BridgeState) (ev : PiEvent) :
    (translatePiEventToCodex gen s ev).1.toolArgsCache = cacheStep s.toolArgsCache ev := by
  unfold translatePiEventToCodex
  rw [core_cache_proj, preTurnId_cache]

theorem runTranslate_cache (gen : Nat → String) (s : BridgeState) (evs : List PiEvent) :
    (runTranslate gen s evs).1.toolArgsCache = List.foldl cacheStep s.toolArgsCache evs := by
  induction evs generalizing s with
  | nil => rfl
  | cons ev rest ih =>
    simp only [runTranslate, List.foldl_cons]
    rw [ih, translate_cache_proj]

theorem foldl_cacheStep_empty :
    ∀ (evs : List PiEvent) (c : List (String × ToolCacheEntry)),
      matchedB evs = true →
      (∀ kv ∈ c, hasEndFor kv.1 evs = true) →
      List.foldl cacheStep c evs = [] := by
  intro evs
  induction evs with
  | nil =>
    intro c _ hc
    cases c with
    | nil => rfl
    | cons kv rest => exact absurd (hc kv (List.mem_cons_self kv rest)) (by simp [hasEndFor])
  | cons ev rest ih =>
    intro c hm hc
    rw [List.foldl_cons]
    cases ev with
    | toolExecutionStart tid tname args =>
      have hmm : hasEndFor tid rest = true ∧ matchedB rest = true := by
        simpa [matchedB, Bool.and_eq_true] using hm
      refine ih _ hmm.2 ?_
      intro kv hkv
      simp only [cacheStep, mapSet] at hkv
      rcases List.mem_cons.mp hkv with rfl | hkv'
      · exact hmm.1
      · have h2 := hc kv hkv'
        simpa [hasEndFor] using h2
    | toolExecutionEnd tid tn a r e =>
      have hmm : matchedB rest = true := by simpa [matchedB] using hm
      refine ih _ hmm ?_
      intro kv hkv
      simp only [cacheStep, mapDelete, List.mem_filter, ne_eq, decide_eq_true_eq] at hkv
      have h2 := hc kv hkv.1
      simp only [hasEndFor, Bool.or_eq_true, decide_eq_true_eq] at h2
      rcases h2 with h2 | h2
      · exact absurd h2.symm hkv.2
      · exact h2
    | agentStart =>
      refine ih _ (by simpa [matchedB] using hm) ?_
      intro kv hkv
      exact (by simpa [hasEndFor] using hc kv (by simpa [cacheStep] using hkv))
    | agentEnd =>
      refine ih _ (by simpa [matchedB] using hm) ?_
      intro kv hkv
      exact (by simpa [hasEndFor] using hc kv (by simpa [cacheStep] using hkv))
    | messageStart role =>
      refine ih _ (by simpa [matchedB] using hm) ?_
      intro kv hkv
      exact (by simpa [hasEndFor] using hc kv (by simpa [cacheStep] using hkv))
    | messageUpdate sub =>
      refine ih _ (by simpa [matchedB] using hm) ?_
      intro kv hkv
      exact (by simpa [hasEndFor] using hc kv (by simpa [cacheStep] using hkv))
    | messageEnd role content usage =>
      refine ih _ (by simpa [matchedB] using hm) ?_
      intro kv hkv
      exact (by simpa [hasEndFor] using hc kv (by simpa [cacheStep] using hkv))
    | toolExecutionUpdate tid pr =>
      refine ih _ (by simpa [matchedB] using hm) ?_
      intro kv hkv
      exact (by simpa [hasEndFor] using hc kv (by simpa [cacheStep] using hkv))
    | autoRetryStart em =>
      refine ih _ (by simpa [matchedB] using hm) ?_
      intro kv hkv
      exact (by simpa [hasEndFor] using hc kv (by simpa [cacheStep] using hkv))
    | autoRetryEnd suc fe =>
      refine ih _ (by simpa [matchedB] using hm) ?_
      intro kv hkv
      exact (by simpa [hasEndFor] using hc kv (by simpa [cacheStep] using hkv))
    | hookError hp em =>
      refine ih _ (by simpa [matchedB] using hm) ?_
      intro kv hkv
      exact (by simpa [hasEndFor] using hc kv (by simpa [cacheStep] using hkv))
    | otherEvent t =>
      refine ih _ (by simpa [matchedB] using hm) ?_
      intro kv hkv
      exact (by simpa [hasEndFor] using hc kv (by simpa [cacheStep] using hkv))

theorem toolEndPush_append (acc : List String) (fp : String) (diff : Option String)
    (fc : String) : ∃ ext, toolEndPush acc fp diff fc = acc ++ ext := by
  unfold toolEndPush
  (repeat' split) <;> first
  | exact ⟨_, rfl⟩
  | exact ⟨[], by simp⟩

theorem emit_diff_step (threadId : String) (s : BridgeState) (completed : OutValue)
    (isFC : Bool) (acc : List String)
    (hacc : ∃ ext, acc = s.accumulatedDiff ++ ext)
    (hc : diffPayloadOf completed = none) :
    (∃ ext, (emitToolEndOutputs threadId s completed isFC acc).1.accumulatedDiff
        = s.accumulatedDiff ++ ext)
    ∧ (diffPayloads (emitToolEndOutputs threadId s completed isFC acc).2 = []
       ∨ (diffPayloads (emitToolEndOutputs threadId s completed isFC acc).2
            = [jsJoin "\n\n" (emitToolEndOutputs threadId s completed isFC acc).1.accumulatedDiff]
          ∧ (emitToolEndOutputs threadId s completed isFC acc).1.accumulatedDiff ≠ [])) := by
  unfold emitToolEndOutputs
  split
  · split
    · refine ⟨hacc, Or.inr ⟨?_, ?_⟩⟩
      · have hn : diffPayloadOf (sendCodexNotification "turn/diff/updated"
            (.diffUpd threadId (jsJoin "\n\n" acc))) = some (jsJoin "\n\n" acc) := rfl
        simp [diffPayloads, List.filterMap_cons, hc, hn]
      · rename_i hlen
        intro hnil
        have hnil' : acc = [] := hnil
        rw [hnil'] at hlen
        simp at hlen
    · exact ⟨hacc, Or.inl (by simp [diffPayloads, hc])⟩
  · exact ⟨⟨[], by simp⟩, Or.inl (by simp [diffPayloads, hc])⟩

theorem toolEnd_diff_step (threadId : String) (s : BridgeState)
    (tid tn : String) (a : Option ToolArgs) (r : Option PiToolResult) (e : Bool) :
    (∃ ext, (translateToolEnd threadId s tid tn a r e).1.accumulatedDiff
        = s.accumulatedDiff ++ ext)
    ∧ (diffPayloads (translateToolEnd threadId s tid tn a r e).2 = []
       ∨ (diffPayloads (translateToolEnd threadId s tid tn a r e).2
            = [jsJoin "\n\n" (translateToolEnd threadId s tid tn a r e).1.accumulatedDiff]
          ∧ (translateToolEnd threadId s tid tn a r e).1.accumulatedDiff ≠ [])) := by
  unfold translateToolEnd
  exact emit_diff_step _ _ _ _ _ (toolEndPush_append _ _ _ _)
    (by simp [diffPayloadOf, sendCodexNotification])

theorem core_diff_step (gen : Nat → String) (threadId turnId : String)
    (s : BridgeState) (ev : PiEvent) (h : ev ≠ PiEvent.agentStart) :
    (∃ ext, (translateCore gen threadId turnId s ev).1.accumulatedDiff
        = s.accumulatedDiff ++ ext)
    ∧ (diffPayloads (translateCore gen threadId turnId s ev).2 = []
       ∨ (diffPayloads (translateCore gen threadId turnId s ev).2
            = [jsJoin "\n\n" (translateCore gen threadId turnId s ev).1.accumulatedDiff]
          ∧ (translateCore gen threadId turnId s ev).1.accumulatedDiff ≠ [])) := by
  cases ev with
  | agentStart => exact absurd rfl h
  | toolExecutionEnd tid tn a r e => exact toolEnd_diff_step threadId s tid tn a r e
  | agentEnd =>
    exact ⟨⟨[], by simp [translateCore]⟩,
      Or.inl (by simp [translateCore, diffPayloads, diffPayloadOf, sendCodexNotification])⟩
  | messageStart role =>
    refine ⟨⟨[], ?_⟩, Or.inl ?_⟩ <;>
      (simp only [translateCore]
       (repeat' split) <;>
         simp_all [diffPayloads, diffPayloadOf, sendCodexNotification])
  | messageUpdate sub =>
    refine ⟨⟨[], ?_⟩, Or.inl ?_⟩ <;>
      (simp only [translateCore]
       (repeat' split) <;>
         simp_all [diffPayloads, diffPayloadOf, sendCodexNotification])
  | messageEnd role content usage =>
    refine ⟨⟨[], ?_⟩, Or.inl ?_⟩ <;>
      (simp only [translateCore]
       (repeat' split) <;>
         simp_all [diffPayloads, diffPayloadOf, sendCodexNotification, preMessageId_acc])
  | toolExecutionStart tid tn a =>
    exact ⟨⟨[], by simp [translateCore]⟩,
      Or.inl (by simp [translateCore, diffPayloads, diffPayloadOf, sendCodexNotification])⟩
  | toolExecutionUpdate tid pr =>
    rcases hf : List.find? (fun c => decide (c.ctype = "text")) ((pr.getD {}).content)
        with _ | tb <;>
      refine ⟨⟨[], ?_⟩, Or.inl ?_⟩ <;>
        (simp only [translateCore, hf]
         simp [diffPayloads, diffPayloadOf, sendCodexNotification])
  | autoRetryStart em =>
    exact ⟨⟨[], by simp [translateCore]⟩,
      Or.inl (by simp [translateCore, diffPayloads, diffPayloadOf, sendCodexNotification])⟩
  | autoRetryEnd suc fe =>
    refine ⟨⟨[], ?_⟩, Or.inl ?_⟩ <;>
      (simp only [translateCore]
       (repeat' split) <;>
         simp_all [diffPayloads, diffPayloadOf, sendCodexNotification])
  | hookError hp em =>
    exact ⟨⟨[], by simp [translateCore]⟩,
      Or.inl (by simp [translateCore, diffPayloads, diffPayloadOf, sendCodexNotification])⟩
  | otherEvent t =>
    exact ⟨⟨[], by simp [translateCore]⟩,
      Or.inl (by simp [translateCore, diffPayloads, diffPayloadOf, sendCodexNotification])⟩

theorem translate_diff_step (gen : Nat → String) (s : BridgeState) (ev : PiEvent)
    (h : ev ≠ PiEvent.agentStart) :
    (∃ ext, (translatePiEventToCodex gen s ev).1.accumulatedDiff = s.accumulatedDiff ++ ext)
    ∧ (diffPayloads (translatePiEventToCodex gen s ev).2 = []
       ∨ (diffPayloads (translatePiEventToCodex gen s ev).2
            = [jsJoin "\n\n" (translatePiEventToCodex gen s ev).1.accumulatedDiff]
          ∧ (translatePiEventToCodex gen s ev).1.accumulatedDiff ≠ [])) := by
  have hpre : (preTurnId gen s).2.accumulatedDiff = s.accumulatedDiff := preTurnId_acc gen s
  unfold translatePiEventToCodex
  rw [← hpre]
  exact core_diff_step gen _ _ _ ev h

theorem run_diff_chain (gen : Nat → String) :
    ∀ (evs : List PiEvent), (∀ ev ∈ evs, ev ≠ PiEvent.agentStart) →
    ∀ (s : BridgeState),
      List.Chain' (fun a b => a.data <+: b.data) (diffPayloads (runTranslate gen s evs).2)
      ∧ (∃ ext, (runTranslate gen s evs).1.accumulatedDiff = s.accumulatedDiff ++ ext)
      ∧ (∀ p, (diffPayloads (runTranslate gen s evs).2).head? = some p →
           ∃ a, (∃ e, a = s.accumulatedDiff ++ e) ∧ a ≠ [] ∧ p = jsJoin "\n\n" a) := by
  intro evs
  induction evs with
  | nil =>
    intro _ s
    exact ⟨List.chain'_nil, ⟨[], by simp [runTranslate]⟩,
      by simp [runTranslate, diffPayloads]⟩
  | cons ev rest ih =>
    intro hno s
    have hev : ev ≠ PiEvent.agentStart := hno ev (List.mem_cons_self _ _)
    have hrest : ∀ e ∈ rest, e ≠ PiEvent.agentStart :=
      fun e he => hno e (List.mem_cons_of_mem _ he)
    obtain ⟨⟨e1, hacc1⟩, hpay⟩ := translate_diff_step gen s ev hev
    obtain ⟨hchain, ⟨e2, hacc2⟩, hhead⟩ := ih hrest (translatePiEventToCodex gen s ev).1
    have hrun : runTranslate gen s (ev :: rest)
        = ((runTranslate gen (translatePiEventToCodex gen s ev).1 rest).1,
           (translatePiEventToCodex gen s ev).2
             ++ (runTranslate gen (translatePiEventToCodex gen s ev).1 rest).2) := rfl
    rw [hrun]
    have hsplit : diffPayloads ((translatePiEventToCodex gen s ev).2
        ++ (runTranslate gen (translatePiEventToCodex gen s ev).1 rest).2)
        = diffPayloads (translatePiEventToCodex gen s ev).2
          ++ diffPayloads (runTranslate gen (translatePiEventToCodex gen s ev).1 rest).2 := by
      simp [diffPayloads, List.filterMap_append]
    rw [hsplit]
    rcases hpay with hp0 | ⟨hp1, hne⟩
    · rw [hp0, List.nil_append]
      refine ⟨hchain, ⟨e1 ++ e2, by rw [hacc2, hacc1, List.append_assoc]⟩, ?_⟩
      intro p hp
      obtain ⟨a, ⟨e, hae⟩, hane, hpj⟩ := hhead p hp
      exact ⟨a, ⟨e1 ++ e, by rw [hae, hacc1, List.append_assoc]⟩, hane, hpj⟩
    · rw [hp1]
      constructor
      · rw [List.singleton_append]
        rw [List.chain'_cons']
        refine ⟨?_, hchain⟩
        intro y hy
        obtain ⟨a, ⟨e, hae⟩, hane, hyj⟩ := hhead y (Option.mem_def.mp hy)
        rw [hyj, hae]
        exact jsJoin_data_mono "\n\n" _ e hne
      · refine ⟨⟨e1 ++ e2, by rw [hacc2, hacc1, List.append_assoc]⟩, ?_⟩
        intro p hp
        rw [List.singleton_append] at hp
        simp only [List.head?_cons, Option.some.injEq] at hp
        exact ⟨(translatePiEventToCodex gen s ev).1.accumulatedDiff,
          ⟨e1, hacc1⟩, hne, hp.symm⟩

theorem emit_out_forms (threadId : String) (s : BridgeState) (completed : OutValue)
    (isFC : Bool) (acc : List String) :
    ∀ o ∈ (emitToolEndOutputs threadId s completed isFC acc).2,
      o = completed
      ∨ o = sendCodexNotification "turn/diff/updated"
              (.diffUpd threadId (jsJoin "\n\n" acc)) := by
  unfold emitToolEndOutputs
  (repeat' split) <;>
    simp [List.forall_mem_cons, List.forall_mem_singleton]

theorem toolEnd_out_ids (threadId : String) (s : BridgeState)
    (tid tn : String) (a : Option ToolArgs) (r : Option PiToolResult) (e : Bool) :
    ∀ o ∈ (translateToolEnd threadId s tid tn a r e).2,
      o.id? = none ∧ (itemIdOf o = none ∨ itemIdOf o = some tid) := by
  intro o ho
  unfold translateToolEnd at ho
  rcases emit_out_forms _ _ _ _ _ o ho with rfl | rfl <;>
    simp [itemIdOf, sendCodexNotification]

theorem core_no_id (gen : Nat → String) (threadId turnId : String) (s : BridgeState)
    (ev : PiEvent) :
    ∀ o ∈ (translateCore gen threadId turnId s ev).2, o.id? = none := by
  cases ev with
  | toolExecutionEnd tid tn a r e =>
    intro o ho
    exact (toolEnd_out_ids threadId s tid tn a r e o ho).1
  | toolExecutionUpdate tid pr =>
    rcases hf : List.find? (fun c => decide (c.ctype = "text")) ((pr.getD {}).content)
        with _ | tb <;>
      (simp only [translateCore, hf]
       simp [List.forall_mem_cons, List.forall_mem_singleton, sendCodexNotification])
  | agentStart =>
    simp [translateCore, List.forall_mem_cons, List.forall_mem_singleton, sendCodexNotification]
  | agentEnd =>
    simp [translateCore, List.forall_mem_cons, List.forall_mem_singleton, sendCodexNotification]
  | messageStart role =>
    simp only [translateCore]
    (repeat' split) <;>
      simp [List.forall_mem_cons, List.forall_mem_singleton, sendCodexNotification]
  | messageUpdate sub =>
    simp only [translateCore]
    (repeat' split) <;>
      simp [List.forall_mem_cons, List.forall_mem_singleton, sendCodexNotification]
  | messageEnd role content usage =>
    simp only [translateCore]
    (repeat' split) <;>
      simp [List.forall_mem_cons, List.forall_mem_singleton, sendCodexNotification]
  | toolExecutionStart tid tn a =>
    simp [translateCore, List.forall_mem_cons, List.forall_mem_singleton, sendCodexNotification]
  | autoRetryStart em =>
    simp [translateCore, List.forall_mem_cons, List.forall_mem_singleton, sendCodexNotification]
  | autoRetryEnd suc fe =>
    simp only [translateCore]
    (repeat' split) <;>
      simp [List.forall_mem_cons, List.forall_mem_singleton, sendCodexNotification]
  | hookError hp em =>
    simp [translateCore, List.forall_mem_cons, List.forall_mem_singleton, sendCodexNotification]
  | otherEvent t =>
    simp [translateCore, List.forall_mem_cons, List.forall_mem_singleton, sendCodexNotification]

theorem translate_no_id (gen : Nat → String) (s : BridgeState) (ev : PiEvent) :
    ∀ o ∈ (translatePiEventToCodex gen s ev).2, o.id? = none := by
  unfold translatePiEventToCodex
  exact core_no_id gen _ _ _ ev

theorem core_item_ids (gen : Nat → String) (threadId turnId : String) (s : BridgeState)
    (ev : PiEvent) (hgen : ∀ n, gen n ≠ "msg-0")
    (hmid : s.currentMessageId ≠ some "msg-0")
    (hagent : "msg-0" ∉ agentItemIds ev) :
    ∀ o ∈ (translateCore gen threadId turnId s ev).2,
      (o.method? = some "item/started" ∨ o.method? = some "item/completed") →
      itemIdOf o ≠ some "msg-0" := by
  cases ev with
  | toolExecutionEnd tid tn a r e =>
    intro o ho _
    have htid : tid ≠ "msg-0" := by
      simp only [agentItemIds, List.mem_singleton] at hagent
      exact fun hc => hagent hc.symm
    rcases (toolEnd_out_ids threadId s tid tn a r e o ho).2 with h | h <;> simp [h] <;>
      first
      | exact htid
      | exact fun hc => htid hc.symm
  | toolExecutionStart tid tn a =>
    have htid : tid ≠ "msg-0" := by
      simp only [agentItemIds, List.mem_singleton] at hagent
      exact fun hc => hagent hc.symm
    simp [translateCore, List.forall_mem_cons, List.forall_mem_singleton, itemIdOf,
      sendCodexNotification]
    first
    | exact htid
    | exact fun hc => htid hc.symm
  | messageStart role =>
    simp only [translateCore]
    (repeat' split) <;>
      simp [List.forall_mem_cons, List.forall_mem_singleton, itemIdOf, sendCodexNotification]
    first
    | exact hgen _
    | exact fun hc => hgen _ hc.symm
  | messageUpdate sub =>
    rcases sub with _ | sub
    · simp [translateCore]
    rcases sub with d | _ | d | c | tc | t <;>
      simp only [translateCore] <;>
      (repeat' split) <;>
      simp [List.forall_mem_cons, List.forall_mem_singleton, itemIdOf, sendCodexNotification]
    rename_i tc'
    have htc : tc'.tcid ≠ "msg-0" := by
      simp only [agentItemIds, List.mem_singleton] at hagent
      exact fun hc => hagent hc.symm
    first
    | exact htc
    | exact fun hc => htc hc.symm
  | messageEnd role content usage =>
    have hfresh := preMessageId_fresh gen s hgen hmid
    simp only [translateCore]
    (repeat' split) <;>
      simp [List.forall_mem_cons, List.forall_mem_singleton, itemIdOf, sendCodexNotification] <;>
      first
      | exact hfresh
      | exact fun hc => hfresh hc.symm
  | agentStart => simp [translateCore, List.forall_mem_cons, itemIdOf, sendCodexNotification]
  | agentEnd => simp [translateCore, List.forall_mem_cons, itemIdOf, sendCodexNotification]
  | toolExecutionUpdate tid pr =>
    rcases hf : List.find? (fun c => decide (c.ctype = "text")) ((pr.getD {}).content)
        with _ | tb <;>
      (simp only [translateCore, hf]
       simp [List.forall_mem_cons, List.forall_mem_singleton, itemIdOf, sendCodexNotification])
  | autoRetryStart em =>
    simp [translateCore, List.forall_mem_cons, itemIdOf, sendCodexNotification]
  | autoRetryEnd suc fe =>
    simp only [translateCore]
    (repeat' split) <;>
      simp [List.forall_mem_cons, List.forall_mem_singleton, itemIdOf, sendCodexNotification]
  | hookError hp em =>
    simp [translateCore, List.forall_mem_cons, itemIdOf, sendCodexNotification]
  | otherEvent t =>
    simp [translateCore, List.forall_mem_cons, itemIdOf, sendCodexNotification]

theorem translate_item_ids (gen : Nat → String) (s : BridgeState) (ev : PiEvent)
    (hgen : ∀ n, gen n ≠ "msg-0") (hmid : s.currentMessageId ≠ some "msg-0")
    (hagent : "msg-0" ∉ agentItemIds ev) :
    ∀ o ∈ (translatePiEventToCodex gen s ev).2,
      (o.method? = some "item/started" ∨ o.method? = some "item/completed") →
      itemIdOf o ≠ some "msg-0" := by
  unfold translatePiEventToCodex
  refine core_item_ids gen _ _ _ ev hgen ?_ hagent
  rw [preTurnId_cmid]
  exact hmid

theorem translate_msg0_delta (gen : Nat → String) (s : BridgeState) (d : String)
    (hmid : s.currentMessageId = none) :
    (translatePiEventToCodex gen s (.messageUpdate (some (.textDelta d)))).2
      = [sendCodexNotification "item/agentMessage/delta"
          (.delta (truthyOr s.currentThreadId "default") "msg-0" d)] := by
  have h1 : (preTurnId gen s).2.currentMessageId = none := by
    rw [preTurnId_cmid]; exact hmid
  unfold translatePiEventToCodex
  simp [translateCore, h1, truthyOr]

/-! ## Router lemmas -/

theorem sendPiCommandAwait_cases {α : Type} (gen : Nat → String) (s : BridgeState)
    (body : PiCommandBody) (res : AwaitRes α) (h : res.isHang = false) :
    (∃ s' cmds a, sendPiCommandAwait gen s body res = (s', cmds, .okv a))
    ∨ (∃ s' cmds m, sendPiCommandAwait gen s body res = (s', cmds, .errv m)) := by
  unfold sendPiCommandAwait
  rcases res with a | m | _
  · by_cases hp : s.piAlive = true
    · refine Or.inl ?_
      simp only [if_pos hp]
      exact ⟨_, _, a, rfl⟩
    · refine Or.inr ?_
      simp only [if_neg hp]
      exact ⟨_, _, _, rfl⟩
  · by_cases hp : s.piAlive = true
    · refine Or.inr ?_
      simp only [if_pos hp]
      exact ⟨_, _, m, rfl⟩
    · refine Or.inr ?_
      simp only [if_neg hp]
      exact ⟨_, _, _, rfl⟩
  · simp [AwaitRes.isHang] at h

theorem turnStart_shape (gen : Nat → String) (idv : Option RpcId) (p : ReqParams)
    (s : BridgeState) (orc : Oracle) (cmds0 : List PiCommand)
    (hset : orc.turnSetModel.isHang = false) :
    (handleTurnStart gen idv p s orc cmds0).halted = false
    ∧ ∃ r e, (handleTurnStart gen idv p s orc cmds0).outs = [sendCodexResponse idv r e]
        ∧ (r.isSome ∨ e.isSome) := by
  unfold handleTurnStart
  rcases hft : firstTruthy [p.threadId, s.currentThreadId] with _ | t <;>
    simp only [hft] <;>
    split
  case _ h =>
    exact ⟨rfl, none, some ⟨-32000, "No text input provided"⟩, rfl, by simp⟩
  case _ h =>
    split
    · rcases sendPiCommandAwait_cases gen _ _ orc.turnSetModel hset with
        ⟨s', cmds, a, heq⟩ | ⟨s', cmds, m, heq⟩ <;> rw [heq]
      · exact ⟨rfl, _, none, rfl, by simp⟩
      · exact ⟨rfl, none, some ⟨-32000, m⟩, rfl, by simp⟩
    · exact ⟨rfl, _, none, rfl, by simp⟩
  case _ h =>
    exact ⟨rfl, none, some ⟨-32000, "No text input provided"⟩, rfl, by simp⟩
  case _ h =>
    split
    · rcases sendPiCommandAwait_cases gen _ _ orc.turnSetModel hset with
        ⟨s', cmds, a, heq⟩ | ⟨s', cmds, m, heq⟩ <;> rw [heq]
      · exact ⟨rfl, _, none, rfl, by simp⟩
      · exact ⟨rfl, none, some ⟨-32000, m⟩, rfl, by simp⟩
    · exact ⟨rfl, _, none, rfl, by simp⟩

theorem ensurePiProcess_cases (gen : Nat → String) (s : BridgeState) (orc : Oracle)
    (h : orc.ensureSetModel.isHang = false) :
    (∃ s' cmds a, ensurePiProcess gen s orc = (s', cmds, .okv a))
    ∨ (∃ s' cmds m, ensurePiProcess gen s orc = (s', cmds, .errv m)) := by
  unfold ensurePiProcess
  by_cases hp : s.piAlive = true
  · refine Or.inl ?_
    simp only [if_pos hp]
    exact ⟨_, _, _, rfl⟩
  · simp only [if_neg hp]
    exact sendPiCommandAwait_cases gen _ _ orc.ensureSetModel h

theorem handler_shape (gen : Nat → String) (req : CodexRequest) (s : BridgeState)
    (orc : Oracle) (hset : Oracle.settles orc) :
    (handleCodexRequest gen req s orc).halted = false
    ∧ ∃ r e, (handleCodexRequest gen req s orc).outs = [sendCodexResponse req.id r e]
        ∧ (r.isSome ∨ e.isSome) := by
  obtain ⟨h1, h2, h3, h4, h5, h6⟩ := hset
  unfold handleCodexRequest
  rcases ensurePiProcess_cases gen s orc h1 with ⟨s', cmds0, a, heq⟩ | ⟨s', cmds0, m, heq⟩ <;>
    rw [heq]
  case _ =>
    split
    case h_1 sx cmdsx heqx => simp at heqx
    case h_2 sx cmdsx mx heqx => simp at heqx
    case h_3 sx cmdsx ax heqx =>
      simp only [Prod.mk.injEq] at heqx
      obtain ⟨rfl, rfl, -⟩ := heqx
      split
      all_goals try exact ⟨rfl, some _, none, rfl, by simp⟩
      all_goals try exact ⟨rfl, none, some _, rfl, by simp⟩
      all_goals try exact turnStart_shape gen req.id _ s' orc cmds0 h2
      all_goals try (split <;> first
        | exact ⟨rfl, some _, none, rfl, by simp⟩
        | exact ⟨rfl, none, some _, rfl, by simp⟩)
      all_goals try (
        rcases sendPiCommandAwait_cases gen s' PiCommandBody.abortCmd orc.abortRes h3 with
          ⟨s2, c2, a2, hq⟩ | ⟨s2, c2, m2, hq⟩ <;> rw [hq] <;> first
        | exact ⟨rfl, some _, none, rfl, by simp⟩
        | exact ⟨rfl, none, some _, rfl, by simp⟩)
      all_goals try (
        rcases sendPiCommandAwait_cases gen s' PiCommandBody.getAvailableModels
            orc.getModels h4 with
          ⟨s2, c2, a2, hq⟩ | ⟨s2, c2, m2, hq⟩ <;> rw [hq] <;> first
        | exact ⟨rfl, some _, none, rfl, by simp⟩
        | exact ⟨rfl, none, some _, rfl, by simp⟩)
      all_goals try (
        rcases horc : orc.rateRes with p2 | m2 | _ <;> simp only [horc] <;> first
        | exact ⟨rfl, some _, none, rfl, by simp⟩
        | exact ⟨rfl, none, some _, rfl, by simp⟩
        | exact ⟨trivial, some _, none, rfl, by simp⟩
        | exact ⟨trivial, none, some _, rfl, by simp⟩
        | (rw [horc] at h5; simp [AwaitRes.isHang] at h5))
      all_goals try (
        rcases horc : orc.authRes with e2 | m2 | _ <;> simp only [horc] <;> first
        | exact ⟨rfl, some _, none, rfl, by simp⟩
        | exact ⟨rfl, none, some _, rfl, by simp⟩
        | exact ⟨trivial, some _, none, rfl, by simp⟩
        | exact ⟨trivial, none, some _, rfl, by simp⟩
        | (rw [horc] at h6; simp [AwaitRes.isHang] at h6))
      all_goals try (
        rcases hpv : firstTruthy [(req.params.getD {}).provider] with _ | pv <;>
          simp only [hpv] <;> first
        | exact ⟨rfl, some _, none, rfl, by simp⟩
        | exact ⟨rfl, none, some _, rfl, by simp⟩
        | exact ⟨trivial, some _, none, rfl, by simp⟩
        | exact ⟨trivial, none, some _, rfl, by simp⟩)
  case _ =>
    exact ⟨rfl, none, some ⟨-32000, m⟩, rfl, by simp⟩

/-! # Claims -/

/-! ## Claim C1 -/

/-- Claim C1, counterexample: with one correlated command pending, the
child-exit handler leaves it pending — it is not rejected, contradicting
the claim that every pending sink is rejected with a terminal error on
child exit. -/
theorem c1_exit_rejects_pending_cex :
    ¬ ((onPiExit { sampleState with pendingRequests := ["cmd-1"] }).pendingRequests = []) := by
  decide

/-- Claim C1, amended: when the child agent process exits, the supervisor
only clears the process handle; the pending-request map is untouched, so a
command pending at the moment of exit stays pending (its sink is never
rejected) for the life of the bridge process. -/
theorem c1_exit_clears_handle_keeps_pending (s : BridgeState) :
    (onPiExit s).piAlive = false ∧ (onPiExit s).pendingRequests = s.pendingRequests :=
  ⟨rfl, rfl⟩

/-! ## Claim C2 -/

/-- Claim C2, counterexample: when the agent process is not running, handling
`initialize` is not side-effect free — the request preamble
(`ensurePiProcess`) spawns the agent and sends it a `set_model` command, so
the bridge state changes and agent traffic occurs. -/
theorem c2_initialize_side_effects_cex :
    ¬ ((handleCodexRequest genSample ⟨some (.num 1), "initialize", none⟩ sampleState
          orcOk).state = sampleState
       ∧ (handleCodexRequest genSample ⟨some (.num 1), "initialize", none⟩ sampleState
          orcOk).piCmds = []) := by
  decide

/-- Claim C2, amended: handling `initialize` responds with
`protocolVersion "2.0"` and capability flags `threads`, `turns`, `models`
all true; provided the agent process is already alive, the `initialize`
branch has no side effects — the entire bridge state is unchanged and no
command is sent to the agent.  (When the agent is down, the shared request
preamble first spawns it and sends `set_model`.) -/
theorem c2_initialize_response_pure_when_alive (gen : Nat → String) (req : CodexRequest)
    (s : BridgeState) (orc : Oracle) (hAlive : s.piAlive = true)
    (hm : req.method = "initialize") :
    handleCodexRequest gen req s orc =
      ⟨s, [sendCodexResponse req.id (some (.initRes "2.0" true true true)) none],
       [], false⟩ := by
  simp [handleCodexRequest, ensurePiProcess, hAlive, hm]

/-- Claim C2, witness: the amended theorem applied to a concrete
`initialize` request against a live agent. -/
theorem c2_initialize_response_pure_when_alive_witness :
    aliveState.piAlive = true ∧
    handleCodexRequest genSample ⟨some (.num 2), "initialize", none⟩ aliveState orcOk =
      ⟨aliveState,
       [sendCodexResponse (some (.num 2)) (some (.initRes "2.0" true true true)) none],
       [], false⟩ :=
  ⟨rfl, c2_initialize_response_pure_when_alive genSample _ aliveState orcOk rfl rfl⟩

/-! ## Claim C3 -/

/-- Claim C3, counterexample: when the agent dies before acknowledging the
spawn-time `set_model` (whose sink is never rejected — see C1), the handler
of an `initialize` request with id 1 suspends forever and emits no outer
value at all, so no response bearing id 1 is ever produced. -/
theorem c3_exactly_one_response_cex :
    ¬ (((handleCodexRequest genSample ⟨some (.num 1), "initialize", none⟩ sampleState
          orcHang).outs.filter (fun o => o.id? = some (RpcId.num 1))).length = 1) := by
  decide

/-- Claim C3, amended: provided every promise the handler awaits settles
(the agent replies or the command fails — not guaranteed by the code, since
a child exit leaves sinks pending), handling an outer request bearing id R
emits exactly one outer value with id R; that value is a response (it has no
method and carries a result or an error), and every value bearing a method —
a notification, including everything the event translator emits — carries no
id at all. -/
theorem c3_exactly_one_response_per_request :
    (∀ (gen : Nat → String) (req : CodexRequest) (R : RpcId) (s : BridgeState)
       (orc : Oracle), req.id = some R → Oracle.settles orc →
      ((handleCodexRequest gen req s orc).outs.filter
          (fun o => o.id? = some R)).length = 1
      ∧ (∀ o ∈ (handleCodexRequest gen req s orc).outs,
          o.id? = some R → o.method? = none ∧ (o.result?.isSome ∨ o.error?.isSome))
      ∧ (∀ o ∈ (handleCodexRequest gen req s orc).outs, o.method?.isSome → o.id? = none))
    ∧ (∀ (gen : Nat → String) (s : BridgeState) (ev : PiEvent),
        ∀ o ∈ (translatePiEventToCodex gen s ev).2, o.id? = none) := by
  constructor
  · intro gen req R s orc hid hset
    obtain ⟨hh, r, e, houts, hre⟩ := handler_shape gen req s orc hset
    rw [houts, hid]
    rcases e with _ | err
    · refine ⟨by simp [sendCodexResponse], ?_, ?_⟩
      · intro o ho _
        simp only [List.mem_singleton] at ho
        subst ho
        rcases hre with hr | he
        · exact ⟨rfl, Or.inl (by simpa [sendCodexResponse] using hr)⟩
        · simp [sendCodexResponse] at he
      · intro o ho hmeth
        simp only [List.mem_singleton] at ho
        subst ho
        simp [sendCodexResponse] at hmeth
    · refine ⟨by simp [sendCodexResponse], ?_, ?_⟩
      · intro o ho _
        simp only [List.mem_singleton] at ho
        subst ho
        exact ⟨rfl, Or.inr (by simp [sendCodexResponse])⟩
      · intro o ho hmeth
        simp only [List.mem_singleton] at ho
        subst ho
        simp [sendCodexResponse] at hmeth
  · intro gen s ev
    exact translate_no_id gen s ev

/-- Claim C3, witness: the amended theorem applied to a concrete `thread/list`
request with id 5 against a live agent and a fully-settling oracle. -/
theorem c3_exactly_one_response_per_request_witness :
    (⟨some (.num 5), "thread/list", none⟩ : CodexRequest).id = some (RpcId.num 5)
    ∧ Oracle.settles orcOk
    ∧ ((handleCodexRequest genSample ⟨some (.num 5), "thread/list", none⟩ aliveState
          orcOk).outs.filter (fun o => o.id? = some (RpcId.num 5))).length = 1 :=
  ⟨rfl, ⟨rfl, rfl, rfl, rfl, rfl, rfl⟩,
   (c3_exactly_one_response_per_request.1 genSample ⟨some (.num 5), "thread/list", none⟩
      (RpcId.num 5) aliveState orcOk rfl ⟨rfl, rfl, rfl, rfl, rfl, rfl⟩).1⟩

/-! ## Claim C4 -/

/-- Claim C4, counterexample: a `turn/start` carrying the unknown
non-composite model id `"futurellm"` (no well-known prefix) against an empty
registry.  The guessed provider is `"anthropic"`, not `"opencode"`, and
nothing is recorded in the registry — a later lookup of `"futurellm"` finds
no entry, contradicting "the guessed provider is recorded in the registry
for the remainder of the session". -/
theorem c4_guess_recorded_cex :
    mapGet (handleCodexRequest genSample
        ⟨some (.num 4), "turn/start",
         some { input := some [⟨"text", "hi"⟩], model := some "futurellm" }⟩
        aliveState orcOk).state.modelProviderMap "futurellm" = none
    ∧ (handleCodexRequest genSample
        ⟨some (.num 4), "turn/start",
         some { input := some [⟨"text", "hi"⟩], model := some "futurellm" }⟩
        aliveState orcOk).state.currentProvider = "anthropic" := by
  decide

/-- Claim C4, amended: for a non-composite model id at `turn/start` the
registry is consulted first (a registered non-empty provider is used as is);
when the id is absent the provider is guessed by name prefix
(claude→anthropic, gpt/o1/o3→openai, gemini→google,
mistral/codestral/devstral→mistral, grok-prefixed or names containing
pickle/glm/minimax→opencode, all others→anthropic).  The guess is *not*
recorded: the registry is left unchanged, only the current provider is
updated and the guessed provider is sent in `set_model`; a later resolution
of the same identifier deterministically re-guesses the same provider. -/
theorem c4_guess_not_recorded (gen : Nat → String) (req : CodexRequest) (s : BridgeState)
    (orc : Oracle) (m : String)
    (hAlive : s.piAlive = true) (hm : req.method = "turn/start")
    (hmodel : (req.params.getD {}).model = some m)
    (hms : m ≠ "") (hdiffm : m ≠ s.currentModel)
    (hnc : jsIncludes m "/" = false)
    (habs : mapGet s.modelProviderMap m = none)
    (hmsg : jsJoin "\n"
        ((((req.params.getD {}).input.getD []).filter (fun b => b.btype = "text")).map
          (fun b => b.text)) ≠ "")
    (hok : orc.turnSetModel = .okv ()) :
    (handleCodexRequest gen req s orc).state.modelProviderMap = s.modelProviderMap
    ∧ (handleCodexRequest gen req s orc).state.currentProvider = guessProvider m
    ∧ resolveLegacyProvider (handleCodexRequest gen req s orc).state.modelProviderMap m
        = guessProvider m
    ∧ (∃ c1 c2 pm, (handleCodexRequest gen req s orc).piCmds
        = [⟨c1, .setModel (guessProvider m) m⟩, ⟨c2, .promptCmd pm⟩])
    ∧ (∀ (mp : List (String × String)) (mm pp : String),
        mapGet mp mm = some pp → pp ≠ "" → resolveLegacyProvider mp mm = pp) := by
  have hres : resolveLegacyProvider s.modelProviderMap m = guessProvider m := by
    simp [resolveLegacyProvider, habs, truthyOr]
  simp only [handleCodexRequest, ensurePiProcess, hAlive, hm, if_true]
  simp only [handleTurnStart, hmodel, hnc]
  rcases hft : firstTruthy [(req.params.getD {}).threadId, s.currentThreadId] with _ | t <;>
  · simp only [hft]
    split
    next hcontra => exact absurd hcontra hmsg
    next hne =>
      simp [hms, hdiffm, hok, hres, habs, sendPiCommandAwait, sendPiCommandNoWait, hAlive,
        resolveLegacyProvider, truthyOr, hne, hnc]
      intro mp mm pp hget hpp
      simp [hget, hpp]

/-- Claim C4, witness: the amended theorem applied to the concrete model id
`"grok-beta"` (prefix `grok` → `opencode`) on a live agent with an empty
registry. -/
theorem c4_guess_not_recorded_witness :
    aliveState.piAlive = true
    ∧ jsIncludes "grok-beta" "/" = false
    ∧ mapGet aliveState.modelProviderMap "grok-beta" = none
    ∧ ((handleCodexRequest genSample
          ⟨some (.num 4), "turn/start",
           some { input := some [⟨"text", "hi"⟩], model := some "grok-beta" }⟩
          aliveState orcOk).state.modelProviderMap = aliveState.modelProviderMap
       ∧ (handleCodexRequest genSample
          ⟨some (.num 4), "turn/start",
           some { input := some [⟨"text", "hi"⟩], model := some "grok-beta" }⟩
          aliveState orcOk).state.currentProvider = guessProvider "grok-beta"
       ∧ resolveLegacyProvider (handleCodexRequest genSample
          ⟨some (.num 4), "turn/start",
           some { input := some [⟨"text", "hi"⟩], model := some "grok-beta" }⟩
          aliveState orcOk).state.modelProviderMap "grok-beta" = guessProvider "grok-beta"
       ∧ (∃ c1 c2 pm, (handleCodexRequest genSample
          ⟨some (.num 4), "turn/start",
           some { input := some [⟨"text", "hi"⟩], model := some "grok-beta" }⟩
          aliveState orcOk).piCmds
            = [⟨c1, .setModel (guessProvider "grok-beta") "grok-beta"⟩, ⟨c2, .promptCmd pm⟩])
       ∧ (∀ (mp : List (String × String)) (mm pp : String),
           mapGet mp mm = some pp → pp ≠ "" → resolveLegacyProvider mp mm = pp))
    ∧ guessProvider "grok-beta" = "opencode" :=
  ⟨rfl, by decide, rfl,
   c4_guess_not_recorded genSample
     ⟨some (.num 4), "turn/start",
      some { input := some [⟨"text", "hi"⟩], model := some "grok-beta" }⟩
     aliveState orcOk "grok-beta" rfl rfl rfl (by decide) (by decide) (by decide) rfl
     (by decide) rfl,
   by decide⟩

/-! ## Claim C5 -/

/-- Claim C5: at `tool_execution_end` for a file-change tool of kind
`create` (tool name `write`), when the agent supplied no diff body and
output text is available, the fragment appended to the diff accumulator is
exactly the spec's synthesized full-addition diff
(`--- /dev/null\n+++ b/<path>\n@@ -0,0 +1,<N> @@\n` followed by each output
line prefixed with `+`, `N` the number of lines); when the agent did supply
a (non-empty) diff body, the appended fragment is
`--- a/<path>\n+++ b/<path>\n` followed by that body. -/
theorem c5_create_diff_fragment (gen : Nat → String) (s : BridgeState)
    (tid path fileContent dBody : String)
    (hc : mapGet s.toolArgsCache tid = none)
    (hf : fileContent ≠ "") (hd : dBody ≠ "") :
    ((translatePiEventToCodex gen s
        (.toolExecutionEnd tid "write" (some { path := some path })
           (some { content := [⟨"text", fileContent⟩] }) false)).1.accumulatedDiff
      = s.accumulatedDiff ++ [claimedCreateFragment path fileContent])
    ∧ ((translatePiEventToCodex gen s
        (.toolExecutionEnd tid "write" (some { path := some path })
           (some { content := [⟨"text", fileContent⟩], diff := some dBody })
           false)).1.accumulatedDiff
      = s.accumulatedDiff ++ [claimedEditFragment path dBody]) := by
  have hpath : jsOr [some path, none, none, none] = path := by
    by_cases hp : path = "" <;> simp [jsOr, hp]
  have hpre : (preTurnId gen s).2.accumulatedDiff = s.accumulatedDiff := preTurnId_acc gen s
  have hcache : (preTurnId gen s).2.toolArgsCache = s.toolArgsCache := preTurnId_cache gen s
  constructor <;>
  · unfold translatePiEventToCodex
    simp only [translateCore, translateToolEnd, emitToolEndOutputs, toolEndPush]
    simp [hc, hf, hd, hpath, hpre, hcache, truthyOr, isFileChangeTool,
      claimedCreateFragment, claimedEditFragment, List.find?, mapGet]

/-- Claim C5, witness: the S4 scenario of the spec — a `write` of
`hello\nworld` to `/f.txt` with no agent diff, plus an `edit` with an agent
diff body; the synthesized fragment matches the spec's literal expectation
byte for byte. -/
theorem c5_create_diff_fragment_witness :
    mapGet sampleState.toolArgsCache "t1" = none
    ∧ ("hello\nworld" : String) ≠ ""
    ∧ ("@@ -1 +1 @@\n-a\n+b" : String) ≠ ""
    ∧ (((translatePiEventToCodex genSample sampleState
          (.toolExecutionEnd "t1" "write" (some { path := some "/f.txt" })
             (some { content := [⟨"text", "hello\nworld"⟩] }) false)).1.accumulatedDiff
        = sampleState.accumulatedDiff ++ [claimedCreateFragment "/f.txt" "hello\nworld"])
       ∧ ((translatePiEventToCodex genSample sampleState
          (.toolExecutionEnd "t1" "write" (some { path := some "/f.txt" })
             (some { content := [⟨"text", "hello\nworld"⟩],
                     diff := some "@@ -1 +1 @@\n-a\n+b" }) false)).1.accumulatedDiff
        = sampleState.accumulatedDiff
          ++ [claimedEditFragment "/f.txt" "@@ -1 +1 @@\n-a\n+b"]))
    ∧ claimedCreateFragment "/f.txt" "hello\nworld"
        = "--- /dev/null\n+++ b//f.txt\n@@ -0,0 +1,2 @@\n+hello\n+world" :=
  ⟨rfl, by decide, by decide,
   c5_create_diff_fragment genSample sampleState "t1" "/f.txt" "hello\nworld"
     "@@ -1 +1 @@\n-a\n+b" rfl (by decide) (by decide),
   by decide⟩

/-! ## Claim C6 -/

/-- Claim C6: within a single turn (an event stream with no intervening
`agent_start`, which is the only reset point), the successive
`turn/diff/updated` payloads — each the accumulator's fragments joined with
the blank-line separator — form a monotone chain: every payload starts with
the previous one as a prefix. -/
theorem c6_diff_payloads_monotone (gen : Nat → String) (s : BridgeState)
    (evs : List PiEvent) (h : ∀ ev ∈ evs, ev ≠ PiEvent.agentStart) :
    List.Chain' (fun a b => a.data <+: b.data)
      (diffPayloads (runTranslate gen s evs).2) :=
  (run_diff_chain gen evs h s).1

/-- Claim C6, witness: a turn with two file-change tool executions (a
`write` with synthesized diff followed by an `edit` with an agent-supplied
diff) — the second `turn/diff/updated` payload extends the first. -/
theorem c6_diff_payloads_monotone_witness :
    (∀ ev ∈ [PiEvent.toolExecutionEnd "t1" "write" (some { path := some "/f.txt" })
               (some { content := [⟨"text", "hello\nworld"⟩] }) false,
             PiEvent.toolExecutionEnd "t2" "edit" (some { path := some "/g.txt" })
               (some { content := [⟨"text", "ok"⟩], diff := some "@@ -1 +1 @@\n-a\n+b" })
               false],
       ev ≠ PiEvent.agentStart)
    ∧ List.Chain' (fun a b => a.data <+: b.data)
        (diffPayloads (runTranslate genSample sampleState
          [PiEvent.toolExecutionEnd "t1" "write" (some { path := some "/f.txt" })
             (some { content := [⟨"text", "hello\nworld"⟩] }) false,
           PiEvent.toolExecutionEnd "t2" "edit" (some { path := some "/g.txt" })
             (some { content := [⟨"text", "ok"⟩], diff := some "@@ -1 +1 @@\n-a\n+b" })
             false]).2) :=
  ⟨by decide, c6_diff_payloads_monotone genSample sampleState _ (by decide)⟩

/-! ## Claim C7 -/

/-- Claim C7, counterexample: (a) two input blocks of kind `text` whose
texts are both empty concatenate to the empty string, yet the code joins
them with a newline (`"\n"`, truthy), so the request succeeds, a `prompt`
is written to the agent, and no error is emitted; (b) even for an input the
code does treat as empty, agent traffic occurs when the process is down
(the preamble spawns it and sends `set_model`). -/
theorem c7_empty_input_no_traffic_cex :
    ((handleCodexRequest genSample
        ⟨some (.num 7), "turn/start", some { input := some [⟨"text", ""⟩, ⟨"text", ""⟩] }⟩
        aliveState orcOk).piCmds ≠ []
     ∧ ∀ o ∈ (handleCodexRequest genSample
        ⟨some (.num 7), "turn/start", some { input := some [⟨"text", ""⟩, ⟨"text", ""⟩] }⟩
        aliveState orcOk).outs, o.error? = none)
    ∧ (handleCodexRequest genSample
        ⟨some (.num 8), "turn/start", some { input := some [] }⟩
        sampleState orcOk).piCmds ≠ [] := by
  decide

/-- Claim C7, amended: a `turn/start` whose text input blocks *joined with
a newline* yield the empty string (no text blocks, or a single empty one),
handled while the agent process is already alive, produces exactly one
response — an invalid-params error (`-32000`, "No text input provided") —
and writes no command to the agent. -/
theorem c7_empty_input_error_no_traffic (gen : Nat → String) (req : CodexRequest)
    (s : BridgeState) (orc : Oracle) (R : RpcId)
    (hAlive : s.piAlive = true) (hm : req.method = "turn/start")
    (hid : req.id = some R)
    (hEmpty : jsJoin "\n"
        ((((req.params.getD {}).input.getD []).filter (fun b => b.btype = "text")).map
          (fun b => b.text)) = "") :
    (handleCodexRequest gen req s orc).outs
        = [sendCodexResponse (some R) none (some ⟨-32000, "No text input provided"⟩)]
    ∧ (handleCodexRequest gen req s orc).piCmds = []
    ∧ (handleCodexRequest gen req s orc).halted = false := by
  simp only [handleCodexRequest, ensurePiProcess, hAlive, hm, hid, if_true]
  simp [handleTurnStart, hEmpty]

/-- Claim C7, witness: the amended theorem applied to a `turn/start` with a
single empty text block against a live agent. -/
theorem c7_empty_input_error_no_traffic_witness :
    aliveState.piAlive = true
    ∧ jsJoin "\n" (((([⟨"text", ""⟩] : List InputBlock)).filter
        (fun b => b.btype = "text")).map (fun b => b.text)) = ""
    ∧ ((handleCodexRequest genSample
          ⟨some (.num 9), "turn/start", some { input := some [⟨"text", ""⟩] }⟩
          aliveState orcOk).outs
        = [sendCodexResponse (some (RpcId.num 9)) none
            (some ⟨-32000, "No text input provided"⟩)]
       ∧ (handleCodexRequest genSample
          ⟨some (.num 9), "turn/start", some { input := some [⟨"text", ""⟩] }⟩
          aliveState orcOk).piCmds = []
       ∧ (handleCodexRequest genSample
          ⟨some (.num 9), "turn/start", some { input := some [⟨"text", ""⟩] }⟩
          aliveState orcOk).halted = false) :=
  ⟨rfl, by decide,
   c7_empty_input_error_no_traffic genSample
     ⟨some (.num 9), "turn/start", some { input := some [⟨"text", ""⟩] }⟩
     aliveState orcOk (RpcId.num 9) rfl rfl rfl (by decide)⟩

/-! ## Claim C8 -/

/-- Claim C8, counterexample: the round-trip is not the identity for every
registry entry — a provider name that itself contains the separator breaks
it.  For the agent-reported model `{provider: "a/b", id: "c"}` the
advertised composite id is `"a/b/c"`, and splitting it at the separator
yields `("a", "b/c")`, not the original `("a/b", "c")`. -/
theorem c8_composite_roundtrip_cex :
    ¬ (parseCompositeId (mkModelEntry "claude-sonnet-4-20250514"
          { provider := "a/b", mid := "c", mname := none, reasoning := false }).id
        = ("a/b", "c")) := by
  decide

/-- Claim C8, amended: for every model entry returned by `model/list` whose
provider name does not contain the separator `/`, the round-trip is the
identity: splitting the advertised composite id yields the original
(provider, inner id) — including for inner ids that themselves contain the
separator — and looking the composite id up in the updated registry yields
that provider. -/
theorem c8_composite_roundtrip (gen : Nat → String) (req : CodexRequest) (s : BridgeState)
    (orc : Oracle) (models : List PiModel)
    (hAlive : s.piAlive = true) (hm : req.method = "model/list")
    (hok : orc.getModels = .okv models)
    (hall : ∀ mo ∈ models, ('/' : Char) ∉ mo.provider.data) :
    (handleCodexRequest gen req s orc).state.modelProviderMap
      = populateRegistry s.modelProviderMap models
    ∧ ∀ mo ∈ models,
        parseCompositeId (mkModelEntry s.currentModel mo).id = (mo.provider, mo.mid)
        ∧ mapGet (handleCodexRequest gen req s orc).state.modelProviderMap
            (mkModelEntry s.currentModel mo).id = some mo.provider := by
  have hred : (handleCodexRequest gen req s orc).state.modelProviderMap
      = populateRegistry s.modelProviderMap models := by
    simp [handleCodexRequest, ensurePiProcess, hAlive, hm, sendPiCommandAwait, hok]
  refine ⟨hred, fun mo hmo => ⟨?_, ?_⟩⟩
  · exact parse_mk_composite _ _ (hall mo hmo)
  · rw [hred]
    exact mapGet_populate models _ hall mo hmo

/-- Claim C8, witness: the amended theorem applied to a concrete agent model
list that includes an inner id containing the separator (`"x/y"`). -/
theorem c8_composite_roundtrip_witness :
    aliveState.piAlive = true
    ∧ orcModels.getModels
        = AwaitRes.okv
            [⟨"anthropic", "claude-sonnet-4-20250514", some "Claude Sonnet 4", false⟩,
             ⟨"opencode", "x/y", none, true⟩]
    ∧ (∀ mo ∈ [(⟨"anthropic", "claude-sonnet-4-20250514", some "Claude Sonnet 4",
                 false⟩ : PiModel), ⟨"opencode", "x/y", none, true⟩],
        ('/' : Char) ∉ mo.provider.data)
    ∧ ((handleCodexRequest genSample ⟨some (.num 6), "model/list", none⟩ aliveState
          orcModels).state.modelProviderMap
        = populateRegistry aliveState.modelProviderMap
            [⟨"anthropic", "claude-sonnet-4-20250514", some "Claude Sonnet 4", false⟩,
             ⟨"opencode", "x/y", none, true⟩]
       ∧ ∀ mo ∈ [(⟨"anthropic", "claude-sonnet-4-20250514", some "Claude Sonnet 4",
                   false⟩ : PiModel), ⟨"opencode", "x/y", none, true⟩],
           parseCompositeId (mkModelEntry aliveState.currentModel mo).id
              = (mo.provider, mo.mid)
           ∧ mapGet (handleCodexRequest genSample ⟨some (.num 6), "model/list", none⟩
                aliveState orcModels).state.modelProviderMap
                (mkModelEntry aliveState.currentModel mo).id = some mo.provider) :=
  ⟨rfl, rfl, by decide,
   c8_composite_roundtrip genSample ⟨some (.num 6), "model/list", none⟩ aliveState
     orcModels _ rfl rfl rfl (by decide)⟩

/-! ## Claim C9 -/

/-- Claim C9, counterexample: a turn whose `tool_execution_start` never
receives its `tool_execution_end` leaves its cached entry in the tool-args
cache past `agent_end` — the cache is *not* empty at the end of that turn
(nothing clears it at `agent_end`). -/
theorem c9_cache_empty_cex :
    (runTranslate genSample sampleState
       [PiEvent.agentStart, PiEvent.toolExecutionStart "t1" "write" none,
        PiEvent.agentEnd]).1.toolArgsCache ≠ [] := by
  decide

/-- Claim C9, amended: starting from an empty tool-args cache, the cache is
empty at the end of every turn in which each `tool_execution_start` is
followed (later in the stream) by a `tool_execution_end` with the same
tool-call id; an unmatched started tool leaves its entry behind, since
`agent_end` does not clear the cache. -/
theorem c9_cache_empty_when_matched (gen : Nat → String) (s : BridgeState)
    (evs : List PiEvent) (h0 : s.toolArgsCache = []) (hm : matchedB evs = true) :
    (runTranslate gen s evs).1.toolArgsCache = [] := by
  rw [runTranslate_cache, h0]
  exact foldl_cacheStep_empty evs [] hm (by simp)

/-- Claim C9, witness: a complete turn whose single tool execution is
properly matched ends with an empty cache. -/
theorem c9_cache_empty_when_matched_witness :
    sampleState.toolArgsCache = []
    ∧ matchedB [PiEvent.agentStart, PiEvent.toolExecutionStart "t1" "write" none,
        PiEvent.toolExecutionEnd "t1" "write" none none false, PiEvent.agentEnd] = true
    ∧ (runTranslate genSample sampleState
        [PiEvent.agentStart, PiEvent.toolExecutionStart "t1" "write" none,
         PiEvent.toolExecutionEnd "t1" "write" none none false,
         PiEvent.agentEnd]).1.toolArgsCache = [] :=
  ⟨rfl, by decide, c9_cache_empty_when_matched genSample sampleState _ rfl (by decide)⟩

/-! ## Claim C10 -/

/-- Claim C10, counterexample: `"msg-0"` is not an identifier that no
`item/started` ever carries — tool-call ids are echoed verbatim, so an agent
that supplies `toolCallId = "msg-0"` makes the translator emit an
`item/started` whose item id is exactly `"msg-0"`. -/
theorem c10_msg0_never_opened_cex :
    ¬ (∀ o ∈ (runTranslate genSample sampleState
          [PiEvent.toolExecutionStart "msg-0" "read" none]).2,
        ¬ (o.method? = some "item/started" ∧ itemIdOf o = some "msg-0")) := by
  decide

/-- Claim C10, amended: a `text_delta` arriving with no live assistant
message still yields exactly one `item/agentMessage/delta` notification and
its itemId is the fixed literal `"msg-0"`; and no *bridge-generated* item id
ever equals `"msg-0"` — as long as the uuid supply avoids it (true of real
UUIDv4 strings), the live message id is not `"msg-0"` and the agent does not
itself supply `"msg-0"` as a tool-call id, no `item/started` or
`item/completed` of the translator carries `"msg-0"`, so such deltas
reference an item that is never opened or closed. -/
theorem c10_msg0_delta_unopened :
    (∀ (gen : Nat → String) (s : BridgeState) (d : String),
      s.currentMessageId = none →
      (translatePiEventToCodex gen s (.messageUpdate (some (.textDelta d)))).2
        = [sendCodexNotification "item/agentMessage/delta"
            (.delta (truthyOr s.currentThreadId "default") "msg-0" d)])
    ∧ (∀ (gen : Nat → String) (s : BridgeState) (ev : PiEvent),
        (∀ n, gen n ≠ "msg-0") → s.currentMessageId ≠ some "msg-0" →
        "msg-0" ∉ agentItemIds ev →
        ∀ o ∈ (translatePiEventToCodex gen s ev).2,
          (o.method? = some "item/started" ∨ o.method? = some "item/completed") →
          itemIdOf o ≠ some "msg-0") :=
  ⟨translate_msg0_delta, translate_item_ids⟩

/-- The concrete uuid supply never produces the literal `"msg-0"`. -/
theorem genSample_ne_msg0 (n : Nat) : genSample n ≠ "msg-0" := by
  intro h
  have hd := congrArg String.data h
  rw [genSample] at hd
  rw [String.data_append] at hd
  have h2 : ("uuid-" : String).data = ['u', 'u', 'i', 'd', '-'] := rfl
  have h3 : ("msg-0" : String).data = ['m', 's', 'g', '-', '0'] := rfl
  rw [h2, h3] at hd
  simp at hd

/-- Claim C10, witness: both parts of the amended theorem at concrete
inputs — a dangling `text_delta` producing the `"msg-0"` delta, and a
normal `tool_execution_start` whose `item/started` id differs from
`"msg-0"`. -/
theorem c10_msg0_delta_unopened_witness :
    sampleState.currentMessageId = none
    ∧ ((translatePiEventToCodex genSample sampleState
          (.messageUpdate (some (.textDelta "Hi")))).2
        = [sendCodexNotification "item/agentMessage/delta"
            (.delta (truthyOr sampleState.currentThreadId "default") "msg-0" "Hi")])
    ∧ sampleState.currentMessageId ≠ some "msg-0"
    ∧ "msg-0" ∉ agentItemIds (PiEvent.toolExecutionStart "t1" "read" none)
    ∧ (∀ o ∈ (translatePiEventToCodex genSample sampleState
          (PiEvent.toolExecutionStart "t1" "read" none)).2,
        (o.method? = some "item/started" ∨ o.method? = some "item/completed") →
        itemIdOf o ≠ some "msg-0") :=
  ⟨rfl,
   c10_msg0_delta_unopened.1 genSample sampleState "Hi" rfl,
   by decide, by decide,
   c10_msg0_delta_unopened.2 genSample sampleState
     (PiEvent.toolExecutionStart "t1" "read" none) genSample_ne_msg0 (by decide)
     (by decide)⟩

end PiAdapter

